import Mathlib

/-!
Shallow embedding of the relay-optimizer core (src/relay-optimizer/src):
the domain model (`models/swimmer.py`, `models/event.py`, `models/team.py`,
`models/result.py`) and the optimization engine (`optimization/optimizer.py`).

Modelling conventions:
* Python floats are modelled by exact rationals extended with the two
  infinities (`XQ`).  The only float operations the engine performs whose
  results are not exact rationals are `numpy.std` square roots; in every
  concrete run considered here the variance is a perfect square, where
  `numpy`'s result is exact as well.  Operations that would be a `nan` or a
  runtime `TypeError`/`ZeroDivisionError` in Python (never exercised by any
  statement proved below) are totalised with the junk value `0`, each marked
  by a comment at its definition.
* Python object identity of `Swimmer` values (used for dict keys, `in` tests
  and `!=` filters on shared mutable objects) is modelled by the `sid` field;
  rosters are assumed to carry pairwise distinct `sid`s, as distinct Python
  objects are distinct identities.
* The single mutable field `Swimmer.events_assigned` is modelled as an
  engine-state table keyed by `sid` (`EngineState.assigned`); its initial
  value is the dataclass field default carried in `events_assigned0`.
* `random.sample` / `random.choice` draws are modelled by an explicit oracle
  `g : Nat -> List Nat` of index choices consumed at an advancing position
  (`EngineState.randPos`): every run of the Python engine corresponds to some
  oracle, and theorems about "every run" quantify over the oracle.
* Python `dict`s are insertion-ordered association lists, Python `set`s of
  event numbers are insertion-ordered duplicate-free lists (iteration order
  of small-int sets is never relied upon at a tie in the runs considered).
-/

namespace RelayOpt

/-- Swim stroke labels ("Back", "Breast", "Fly", "Free"). -/
inductive Stroke
  | back | breast | fly | free
deriving DecidableEq, Repr

/-- `models/swimmer.py` `Gender`. -/
inductive Gender
  | male | female
deriving DecidableEq, Repr

/-- `models/event.py` `Session`. -/
inductive Session
  | am | pm
deriving DecidableEq, Repr

/-- `models/event.py` `EventType`. -/
inductive EventType
  | mens | womens | mixed
deriving DecidableEq, Repr

/-- `models/event.py` `StrokeType`. -/
inductive StrokeType
  | freestyle | medley
deriving DecidableEq, Repr

/-- `models/event.py` `Event`. -/
structure Event where
  event_number : Nat
  event_name : String
  session : Session
  gender_type : EventType
  stroke_type : StrokeType
  distance : Nat
  competition_level : Nat := 3
deriving DecidableEq, Repr

/-- `Event.get_strokes`. -/
def Event.get_strokes (e : Event) : List Stroke :=
  match e.stroke_type with
  | .medley => [.back, .breast, .fly, .free]
  | .freestyle => [.free, .free, .free, .free]

/-- `models/swimmer.py` `Swimmer` (immutable part; see the header notes on
`sid` and `events_assigned0`). -/
structure Swimmer where
  sid : Nat
  first_name : String
  last_name : String
  birth_year : Int
  birth_month : Nat
  birth_day : Nat
  gender : Gender
  max_events : Nat := 6
  morning_available : Bool := true
  afternoon_available : Bool := true
  excluded_strokes : List Stroke := []
  times : List ((Stroke × Nat) × ℚ) := []
  events_assigned0 : Nat := 0
deriving DecidableEq, Repr

/-- `Swimmer.name`: `f"{last_name}, {first_name}"`. -/
def Swimmer.name (s : Swimmer) : String :=
  s.last_name ++ ", " ++ s.first_name

/-- `Swimmer.age`, with `date.today().year` passed explicitly.  The reference
date is Dec 31 of the current year, so the lexicographic comparison
`(12, 31) < (birth_month, birth_day)` is spelled out. -/
def Swimmer.age (todayYear : Int) (s : Swimmer) : Int :=
  todayYear - s.birth_year -
    (if 12 < s.birth_month ∨ (12 = s.birth_month ∧ 31 < s.birth_day) then 1 else 0)

/-- `Swimmer.available_for` (the engine only ever passes `"AM"`/`"PM"`). -/
def Swimmer.available_for (s : Swimmer) (session : Session) : Bool :=
  match session with
  | .am => s.morning_available
  | .pm => s.afternoon_available

/-- `Swimmer.can_swim`. -/
def Swimmer.can_swim (s : Swimmer) (stroke : Stroke) : Bool :=
  ¬ s.excluded_strokes.contains stroke

/-- `Swimmer.get_time` (`times.get((stroke, distance))`). -/
def Swimmer.get_time (s : Swimmer) (stroke : Stroke) (distance : Nat) : Option ℚ :=
  (s.times.find? (fun p => p.1 == (stroke, distance))).map (·.2)

/-- `Swimmer.has_time_for`. -/
def Swimmer.has_time_for (s : Swimmer) (stroke : Stroke) (distance : Nat) : Bool :=
  (s.get_time stroke distance).isSome

/-- Addition on `ℚ` routed through `mkRat` so that it reduces inside the
kernel (the library's instance arithmetic does not); `qadd_eq` below proves it
equal to `+`. -/
def qadd (a b : ℚ) : ℚ :=
  mkRat (a.num * (b.den : Int) + b.num * (a.den : Int)) (a.den * b.den)

/-- Kernel-reducible negation on `ℚ`. -/
def qneg (a : ℚ) : ℚ :=
  mkRat (-a.num) a.den

/-- Kernel-reducible subtraction on `ℚ`. -/
def qsub (a b : ℚ) : ℚ :=
  qadd a (qneg b)

/-- Kernel-reducible multiplication on `ℚ`. -/
def qmul (a b : ℚ) : ℚ :=
  mkRat (a.num * b.num) (a.den * b.den)

/-- Kernel-reducible division on `ℚ` (division by `0` gives `0`, as for the
library's `/`; callers guard the Python-faulting case separately). -/
def qdiv (a b : ℚ) : ℚ :=
  let d : Int := (a.den : Int) * b.num
  if d < 0 then mkRat (-(a.num * (b.den : Int))) (-d).toNat
  else mkRat (a.num * (b.den : Int)) d.toNat

/-- Kernel-reducible sum of a list of rationals. -/
def qsum : List ℚ → ℚ
  | [] => mkRat 0 1
  | x :: xs => qadd x (qsum xs)

/-! Correctness of the kernel-reducible rational operations. -/

lemma qadd_eq (a b : ℚ) : qadd a b = a + b := by
  unfold qadd
  rw [Rat.mkRat_eq_div]
  conv_rhs => rw [← Rat.num_div_den a, ← Rat.num_div_den b]
  have ha : ((a.den : ℚ)) ≠ 0 := by
    exact_mod_cast a.den_nz
  have hb : ((b.den : ℚ)) ≠ 0 := by
    exact_mod_cast b.den_nz
  field_simp

lemma qneg_eq (a : ℚ) : qneg a = -a := by
  unfold qneg
  rw [Rat.mkRat_eq_div]
  conv_rhs => rw [← Rat.num_div_den a]
  push_cast
  ring

lemma qmul_eq (a b : ℚ) : qmul a b = a * b := by
  unfold qmul
  rw [Rat.mkRat_eq_div]
  conv_rhs => rw [← Rat.num_div_den a, ← Rat.num_div_den b]
  have ha : ((a.den : ℚ)) ≠ 0 := by exact_mod_cast a.den_nz
  have hb : ((b.den : ℚ)) ≠ 0 := by exact_mod_cast b.den_nz
  field_simp

lemma qdiv_eq (a b : ℚ) : qdiv a b = a / b := by
  unfold qdiv
  have key : a / b = ((a.num * (b.den : Int) : Int) : ℚ) / (((a.den : Int) * b.num : Int) : ℚ) := by
    rcases eq_or_ne b 0 with rfl | hb
    · simp
    · have hbn : (b.num : ℚ) ≠ 0 := by
        exact_mod_cast Rat.num_ne_zero.mpr hb
      have ha : ((a.den : ℚ)) ≠ 0 := by exact_mod_cast a.den_nz
      have hbd : ((b.den : ℚ)) ≠ 0 := by exact_mod_cast b.den_nz
      conv_lhs => rw [← Rat.num_div_den a, ← Rat.num_div_den b]
      push_cast
      field_simp
  rcases lt_trichotomy ((a.den : Int) * b.num) 0 with h | h | h
  · rw [if_pos h, Rat.mkRat_eq_div, key]
    have : (((- ((a.den : Int) * b.num)).toNat : Int) : ℚ) = -(((a.den : Int) * b.num : Int) : ℚ) := by
      rw [Int.toNat_of_nonneg (by omega)]
      push_cast
      ring
    push_cast at this ⊢
    rw [this]
    ring_nf
  · rw [if_neg (by omega), key, h]
    simp
  · rw [if_neg (by omega), Rat.mkRat_eq_div, key]
    congr 1
    exact_mod_cast congrArg (fun z : Int => (z : ℚ)) (Int.toNat_of_nonneg (le_of_lt h))

lemma qsub_eq (a b : ℚ) : qsub a b = a - b := by
  unfold qsub
  rw [qadd_eq, qneg_eq]
  ring

lemma qsum_eq (l : List ℚ) : qsum l = l.sum := by
  induction l with
  | nil => rfl
  | cons x xs ih => simp [qsum, qadd_eq, ih]

/-- Exact model of Python float values produced by the engine: rationals plus
the two infinities.  See the header notes. -/
inductive XQ
  | fin (q : ℚ)
  | pinf
  | ninf
deriving DecidableEq, Repr

/-- Float `<` on non-nan values. -/
def XQ.lt : XQ → XQ → Bool
  | .ninf, .ninf => false
  | .ninf, _ => true
  | .fin _, .ninf => false
  | .fin a, .fin b => a < b
  | .fin _, .pinf => true
  | .pinf, _ => false

/-- Float negation. -/
def XQ.neg : XQ → XQ
  | .fin a => .fin (qneg a)
  | .pinf => .ninf
  | .ninf => .pinf

/-- Float addition; `inf + (-inf)` would be a nan, totalised as `0` (junk,
never reached by any statement below). -/
def XQ.add : XQ → XQ → XQ
  | .fin a, .fin b => .fin (qadd a b)
  | .pinf, .ninf => .fin 0
  | .ninf, .pinf => .fin 0
  | .pinf, _ => .pinf
  | _, .pinf => .pinf
  | .ninf, _ => .ninf
  | _, .ninf => .ninf

/-- Float subtraction. -/
def XQ.sub (a b : XQ) : XQ := a.add b.neg

/-- Float multiplication; `0 * inf` would be a nan, totalised as `0` (junk). -/
def XQ.mul : XQ → XQ → XQ
  | .fin a, .fin b => .fin (qmul a b)
  | .pinf, .pinf => .pinf
  | .pinf, .ninf => .ninf
  | .ninf, .pinf => .ninf
  | .ninf, .ninf => .pinf
  | .pinf, .fin b => if 0 < b then .pinf else if b < 0 then .ninf else .fin 0
  | .ninf, .fin b => if 0 < b then .ninf else if b < 0 then .pinf else .fin 0
  | .fin a, .pinf => if 0 < a then .pinf else if a < 0 then .ninf else .fin 0
  | .fin a, .ninf => if 0 < a then .ninf else if a < 0 then .pinf else .fin 0

/-- Float division; division of finites by `0` would raise (or give a nan),
totalised as `0` (junk, never reached below); a finite over an infinity is
`0` as for floats. -/
def XQ.div : XQ → XQ → XQ
  | .fin a, .fin b => if b = 0 then .fin 0 else .fin (qdiv a b)
  | .fin _, .pinf => .fin 0
  | .fin _, .ninf => .fin 0
  | .pinf, .fin b => if 0 ≤ b then .pinf else .ninf
  | .ninf, .fin b => if 0 ≤ b then .ninf else .pinf
  | .pinf, _ => .fin 0
  | .ninf, _ => .fin 0

/-- `models/team.py` `AGE_GROUPS`. -/
def AGE_GROUPS : List (Int × Int) :=
  [(72, 99), (100, 119), (120, 159), (160, 199), (200, 239), (240, 279), (280, 319)]

/-- `models/team.py` `Team` (without the `__post_init__` length guard, which
is modelled by `mkTeamE`). -/
structure Team where
  swimmers : List Swimmer
  event : Event
deriving DecidableEq, Repr

/-- `Team.__post_init__`: constructing a team with a list whose length is not
4 raises `ValueError`. -/
def mkTeamE (swimmers : List Swimmer) (event : Event) : Except String Team :=
  if swimmers.length ≠ 4 then
    .error "Team must have exactly 4 swimmers"
  else
    .ok ⟨swimmers, event⟩

/-- `Team.total_age`. -/
def Team.total_age (todayYear : Int) (t : Team) : Int :=
  (t.swimmers.map (Swimmer.age todayYear)).sum

/-- The band computation of `Team.age_group`, as a function of the summed
age. -/
def ageGroupOfTotal (total : Int) : Int × Int :=
  match AGE_GROUPS.find? (fun g => decide (g.1 ≤ total) && decide (total ≤ g.2)) with
  | some g => g
  | none => if 320 ≤ total then (280, 319) else (72, 99)

/-- `Team.age_group`. -/
def Team.age_group (todayYear : Int) (t : Team) : Int × Int :=
  ageGroupOfTotal (t.total_age todayYear)

/-- Helper for `Team.calculate_time`: the running sum, `inf` as soon as a leg
time is missing. -/
def calcTimeGo (distance : Nat) (acc : ℚ) : List (Swimmer × Stroke) → XQ
  | [] => .fin acc
  | (s, stroke) :: rest =>
    match s.get_time stroke distance with
    | none => .pinf
    | some tm => calcTimeGo distance (qadd acc tm) rest

/-- `Team.calculate_time`. -/
def Team.calculate_time (t : Team) : XQ :=
  calcTimeGo t.event.distance 0 (t.swimmers.zip t.event.get_strokes)

/-- First swimmer of `t` failing the availability / max-events loop of
`Team.validate`, with the corresponding message. -/
def validateAvailFail (assignedOf : Swimmer → Nat) (session : Session) :
    List Swimmer → Option String
  | [] => none
  | s :: rest =>
    if ¬ s.available_for session then
      some (s.name ++ " not available")
    else if s.max_events ≤ assignedOf s then
      some (s.name ++ " at max events")
    else
      validateAvailFail assignedOf session rest

/-- First leg of `t` failing the stroke/time loop of `Team.validate`. -/
def validateStrokeFail (distance : Nat) : List (Swimmer × Stroke) → Option String
  | [] => none
  | (s, stroke) :: rest =>
    if ¬ s.can_swim stroke then
      some (s.name ++ " cannot swim stroke")
    else if ¬ s.has_time_for stroke distance then
      some (s.name ++ " has no time for stroke")
    else
      validateStrokeFail distance rest

/-- `Team.validate`.  `assignedOf` reads the current value of the mutable
`events_assigned` counter of each swimmer (see the header notes). -/
def Team.validate (assignedOf : Swimmer → Nat) (t : Team) : Bool × String :=
  if t.swimmers.length ≠ 4 then
    (false, "Team must have exactly 4 swimmers")
  else if t.event.gender_type = .mens ∧ t.swimmers.any (fun s => s.gender ≠ .male) then
    (false, "Mens event requires 4 men")
  else if t.event.gender_type = .womens ∧ t.swimmers.any (fun s => s.gender ≠ .female) then
    (false, "Womens event requires 4 women")
  else if t.event.gender_type = .mixed ∧
      ¬ ((t.swimmers.countP (·.gender = .male)) = 2 ∧
         (t.swimmers.countP (·.gender = .female)) = 2) then
    (false, "Mixed relay needs 2M+2W")
  else
    match validateAvailFail assignedOf t.event.session t.swimmers with
    | some msg => (false, msg)
    | none =>
      match validateStrokeFail t.event.distance (t.swimmers.zip t.event.get_strokes) with
      | some msg => (false, msg)
      | none => (true, "Valid team")

/-- All ways of selecting one element from a list, in list order, paired with
the remaining elements in their original order (`itertools.permutations`
helper). -/
def selects {α : Type} : List α → List (α × List α)
  | [] => []
  | x :: xs => (x, xs) :: (selects xs).map (fun p => (p.1, x :: p.2))

/-- Fuelled permutation enumeration in `itertools.permutations` order
(lexicographic by original index). -/
def permsGo {α : Type} : Nat → List α → List (List α)
  | 0, _ => [[]]
  | n + 1, l => (selects l).flatMap (fun p => (permsGo n p.2).map (p.1 :: ·))

/-- `itertools.permutations(l)` in enumeration order. -/
def perms {α : Type} (l : List α) : List (List α) :=
  permsGo l.length l

/-- `itertools.combinations(l, k)` in enumeration order. -/
def combos {α : Type} : Nat → List α → List (List α)
  | 0, _ => [[]]
  | _ + 1, [] => []
  | k + 1, x :: xs => (combos k xs).map (x :: ·) ++ combos (k + 1) xs

/-- The fixed medley leg order of `create_valid_team`
(`strokes = ["Back", "Breast", "Fly", "Free"]`). -/
def medleyStrokes : List Stroke := [.back, .breast, .fly, .free]

/-- Legality of one medley ordering in `create_valid_team`: every swimmer
covers the leg at the slot's distance. -/
def medleyLegal (distance : Nat) (p : List Swimmer) : Bool :=
  (p.zip medleyStrokes).all (fun q => q.1.can_swim q.2 && q.1.has_time_for q.2 distance)

/-- Aggregate time of one medley ordering in `create_valid_team` (only read
on legal orderings, where every leg time is present). -/
def medleyTime (distance : Nat) (p : List Swimmer) : ℚ :=
  qsum ((p.zip medleyStrokes).map (fun q => (q.1.get_time q.2 distance).getD 0))

/-- One step of the medley loop of `create_valid_team`: keep the ordering if
it is legal and strictly faster than the best so far (so the first ordering
achieving the minimum wins).  The `Team` constructor runs inside the loop, so
its error is propagated. -/
def medleyStep (ev : Event) (acc : Option Team × XQ) (p : List Swimmer) :
    Except String (Option Team × XQ) :=
  if medleyLegal ev.distance p ∧ (XQ.fin (medleyTime ev.distance p)).lt acc.2 then do
    let t ← mkTeamE p ev
    pure (some t, .fin (medleyTime ev.distance p))
  else
    pure acc

/-- `RelayOptimizer.create_valid_team`, with the `Team` constructor's
`ValueError` surfaced in `Except`.  `assignedOf` is the current
`events_assigned` table, read by `Team.validate` on the freestyle path. -/
def createValidTeamE (assignedOf : Swimmer → Nat) (swimmers : List Swimmer)
    (event : Event) : Except String (Option Team) :=
  if swimmers.length ≠ 4 then
    .ok none
  else
    match event.stroke_type with
    | .freestyle => do
      let t ← mkTeamE swimmers event
      pure (if (t.validate assignedOf).1 then some t else none)
    | .medley => do
      let r ← (perms swimmers).foldlM (medleyStep event) (none, .pinf)
      pure r.1

/-- `create_valid_team` as used by the engine.  The `.error` case is provably
unreachable (see the claim-9 theorem), so collapsing it to `none` does not
change any engine behaviour. -/
def createValidTeam (assignedOf : Swimmer → Nat) (swimmers : List Swimmer)
    (event : Event) : Option Team :=
  match createValidTeamE assignedOf swimmers event with
  | .ok o => o
  | .error _ => none

/-- `optimizer.py` `Baseline`. -/
structure Baseline where
  mean_time : ℚ
  std_time : ℚ
  sample_size : Nat
deriving DecidableEq, Repr

/-- Python `dict.get` on an insertion-ordered association list. -/
def alistGet {κ ν : Type} [BEq κ] (m : List (κ × ν)) (k : κ) : Option ν :=
  (m.find? (fun p => p.1 == k)).map (·.2)

/-- Python `dict.__setitem__`: replace in place, or append a new key. -/
def alistSet {κ ν : Type} [BEq κ] (m : List (κ × ν)) (k : κ) (v : ν) : List (κ × ν) :=
  if m.any (fun p => p.1 == k) then
    m.map (fun p => if p.1 == k then (k, v) else p)
  else
    m ++ [(k, v)]

/-- Python `set.add` on an insertion-ordered duplicate-free list. -/
def setAdd (l : List Nat) (x : Nat) : List Nat :=
  if l.contains x then l else l ++ [x]

/-- Python `set.discard`. -/
def setDiscard (l : List Nat) (x : Nat) : List Nat :=
  l.filter (· ≠ x)

/-- Stable insertion of `x` after the strictly smaller prefix: combined with
`sortByLt` this reproduces Python's stable ascending `list.sort`. -/
def insertLt {α : Type} (lt : α → α → Bool) (x : α) : List α → List α
  | [] => [x]
  | y :: ys => if lt y x then y :: insertLt lt x ys else x :: y :: ys

/-- Stable ascending sort (the unique stable-sort result, hence equal to
Python's `list.sort(key=...)` with `lt` comparing keys strictly). -/
def sortByLt {α : Type} (lt : α → α → Bool) : List α → List α
  | [] => []
  | x :: xs => insertLt lt x (sortByLt lt xs)

/-- `random.sample(l, k)` driven by one oracle draw: each index in `idxs`
selects (mod the remaining length) the next element without replacement; the
selected elements appear in selection order. -/
def sampleO {α : Type} (idxs : List Nat) (l : List α) : Nat → List α
  | 0 => []
  | k + 1 =>
    match idxs with
    | [] => []
    | i :: rest =>
      match l[i % l.length]? with
      | none => []
      | some x => x :: sampleO rest (l.eraseIdx (i % l.length)) k

/-- `random.choice(l)` driven by one oracle index. -/
def chooseO {α : Type} (i : Nat) (l : List α) : Option α :=
  l[i % l.length]?

/-- `numpy.mean` (callers only apply it to non-empty lists). -/
def npMean (l : List ℚ) : ℚ :=
  qdiv (qsum l) (mkRat l.length 1)

/-- Fuelled Newton iteration for the integer square root (kernel-reducible,
unlike the library's well-founded `Nat.sqrt`). -/
def sqrtIter (n : Nat) : Nat → Nat → Nat
  | 0, x => x
  | fuel + 1, x =>
    let y := (x + n / x) / 2
    if y < x then sqrtIter n fuel y else x

/-- Integer square root (agrees with `Nat.sqrt`; the fuel `n` dominates the
number of Newton steps). -/
def natSqrtF (n : Nat) : Nat :=
  if n ≤ 1 then n else sqrtIter n n n

/-- Exact rational square root: exact whenever the argument is the square of
a rational, which holds for every variance arising in the runs considered
(see the header notes on `numpy.std`). -/
def ratSqrt (q : ℚ) : ℚ :=
  qdiv (mkRat (natSqrtF q.num.toNat) 1) (mkRat (natSqrtF q.den) 1)

/-- `numpy.std` (population standard deviation). -/
def npStd (l : List ℚ) : ℚ :=
  ratSqrt (qdiv (qsum (l.map (fun x => qmul (qsub x (npMean l)) (qsub x (npMean l))))) (mkRat l.length 1))

/-- The oracle of random draws: the value at each position is the list of
index choices consumed by one `random.sample` / `random.choice` call. -/
abbrev Oracle := Nat → List Nat

/-- The mutable state of one `RelayOptimizer` run: the constructor fields of
`RelayOptimizer.__init__` (`swimmers`, `events`, `baselines`,
`swimmer_events`), the `events_assigned` table (see header), the `solution`
dict created in `optimize` and threaded through every helper, the oracle
position, and the current year used by `Swimmer.age`. -/
structure EngineState where
  swimmers : List Swimmer
  events : List Event
  todayYear : Int
  baselines : List (Nat × List ((Int × Int) × Baseline))
  swimmer_events : List (Nat × List Nat)
  assigned : List (Nat × Nat)
  solution : List (Nat × Option Team)
  randPos : Nat
deriving Repr

/-- `self.swimmer_events[swimmer]` (a set of event numbers). -/
def EngineState.eventsOf (st : EngineState) (sid : Nat) : List Nat :=
  (alistGet st.swimmer_events sid).getD []

/-- The current value of `swimmer.events_assigned`. -/
def EngineState.assignedOf (st : EngineState) (s : Swimmer) : Nat :=
  (alistGet st.assigned s.sid).getD s.events_assigned0

/-- Write `self.swimmer_events[swimmer]` and re-derive
`swimmer.events_assigned = len(...)`, as every mutation site does. -/
def EngineState.setEvents (st : EngineState) (sid : Nat) (l : List Nat) : EngineState :=
  { st with
    swimmer_events := alistSet st.swimmer_events sid l
    assigned := alistSet st.assigned sid l.length }

/-- Consume one oracle draw. -/
def EngineState.draw (g : Oracle) (st : EngineState) : List Nat × EngineState :=
  (g st.randPos, { st with randPos := st.randPos + 1 })

/-- `next(e for e in self.events if e.event_number == n)` (the `StopIteration`
case surfaces as `none`; see each caller). -/
def EngineState.findEvent (st : EngineState) (n : Nat) : Option Event :=
  st.events.find? (fun e => e.event_number == n)

/-- `solution.get(n)` collapsed with the stored-`None` case, as every Python
truthiness test `if not team` does. -/
def EngineState.solutionTeam (st : EngineState) (n : Nat) : Option Team :=
  (alistGet st.solution n).getD none

/-- `RelayOptimizer.calculate_z_score`. -/
def calculate_z_score (st : EngineState) (t : Team) (ev : Event) : XQ :=
  match alistGet st.baselines ev.event_number with
  | none => .fin 0
  | some eb =>
    match alistGet eb (t.age_group st.todayYear) with
    | none => .fin 0
    | some b =>
      if b.std_time = 0 then .fin 0
      else XQ.div (XQ.sub (.fin b.mean_time) t.calculate_time) (.fin b.std_time)

/-- `RelayOptimizer.get_eligible_swimmers`. -/
def get_eligible_swimmers (st : EngineState) (ev : Event) : List Swimmer :=
  st.swimmers.filter (fun s =>
    s.available_for ev.session &&
    match ev.stroke_type with
    | .freestyle => s.can_swim .free && s.has_time_for .free ev.distance
    | .medley => medleyStrokes.any (fun stroke =>
        s.can_swim stroke && s.has_time_for stroke ev.distance))

/-- `RelayOptimizer.get_swimmer_time_for_event`.  On the freestyle path the
source returns `swimmer.get_time(...)`, which may be `None` and would fault in
the caller's arithmetic; that case is totalised as `0` (junk, unreachable for
teams installed by the engine). -/
def get_swimmer_time_for_event (s : Swimmer) (ev : Event) (t : Team) : XQ :=
  match ev.stroke_type with
  | .freestyle => .fin ((s.get_time .free ev.distance).getD 0)
  | .medley =>
    match (t.swimmers.zip medleyStrokes).find? (fun q => q.1.sid == s.sid) with
    | some q =>
      match s.get_time q.2 ev.distance with
      | some tm => .fin tm
      | none => .fin 0
    | none => .pinf

/-- `RelayOptimizer.get_swimmer_best_time_for_event`.  The freestyle `None`
case is totalised as `0` (junk, unreachable: callers only pass eligible
swimmers, who hold a freestyle time). -/
def get_swimmer_best_time_for_event (s : Swimmer) (ev : Event) : XQ :=
  match ev.stroke_type with
  | .freestyle => .fin ((s.get_time .free ev.distance).getD 0)
  | .medley =>
    medleyStrokes.foldl
      (fun best stroke =>
        if s.can_swim stroke ∧ s.has_time_for stroke ev.distance then
          match s.get_time stroke ev.distance with
          | some tm => if (XQ.fin tm).lt best then .fin tm else best
          | none => best
        else best)
      .pinf

/-- `RelayOptimizer.get_baseline_for_swimmer_age`.  The age-group list is the
local literal of the source.  `avg_age` divides by the roster size (junk `0`
for an empty roster, never passed by the engine). -/
def get_baseline_for_swimmer_age (st : EngineState) (s : Swimmer) (ev : Event) :
    Option Baseline :=
  let avg_age : ℚ := qdiv (qsum (st.swimmers.map (fun w => (w.age st.todayYear : ℚ))))
    (mkRat st.swimmers.length 1)
  let approx_team_age : ℚ := qadd (s.age st.todayYear : ℚ) (qmul avg_age (mkRat 3 1))
  let age_groups : List (Int × Int) :=
    [(72, 99), (100, 119), (120, 159), (160, 199), (200, 239), (240, 279), (280, 319)]
  match age_groups.find? (fun grp =>
      decide ((grp.1 : ℚ) ≤ approx_team_age) && decide (approx_team_age ≤ (grp.2 : ℚ))) with
  | some grp => alistGet ((alistGet st.baselines ev.event_number).getD []) grp
  | none => none

/-- `RelayOptimizer.calculate_swimmer_contribution`. -/
def calculate_swimmer_contribution (st : EngineState) (s : Swimmer) (ev : Event) : XQ :=
  match st.solutionTeam ev.event_number with
  | none => .fin 0
  | some team =>
    if ¬ (team.swimmers.any (fun w => w.sid == s.sid)) then .fin 0
    else
      let current_z := calculate_z_score st team ev
      XQ.mul current_z
        (XQ.div (get_swimmer_time_for_event s ev team) team.calculate_time)

/-- `RelayOptimizer.estimate_swimmer_contribution`. -/
def estimate_swimmer_contribution (st : EngineState) (s : Swimmer) (ev : Event) : XQ :=
  let time := get_swimmer_best_time_for_event s ev
  if time = .pinf then .fin (mkRat (-10) 1)
  else
    match get_baseline_for_swimmer_age st s ev with
    | none => .fin 0
    | some b =>
      XQ.div (XQ.sub (.fin (qdiv b.mean_time (mkRat 4 1))) time) (.fin (qdiv b.std_time (mkRat 4 1)))

/-- `RelayOptimizer.find_worst_event_for_swimmer`.  Events of the set that do
not occur in `self.events` would raise `StopIteration` in the source's
`next(...)`; they are skipped here (junk, unreachable: the engine only ever
adds numbers of its own events). -/
def find_worst_event_for_swimmer (st : EngineState) (s : Swimmer) : Option Nat :=
  ((st.eventsOf s.sid).foldl
    (fun (acc : Option Nat × XQ) event_num =>
      match st.findEvent event_num with
      | none => acc
      | some ev =>
        let c := calculate_swimmer_contribution st s ev
        if c.lt acc.2 then (some event_num, c) else acc)
    (none, .pinf)).1

/-- Python truthiness of the `Optional[int]` event number (`None` and `0` are
both falsy, as in `if not worst_event_num`). -/
def optNatTruthy (o : Option Nat) : Bool :=
  match o with
  | none => false
  | some n => n ≠ 0

/-- `RelayOptimizer.would_swap_improve` (`if not worst_event_num` treats a
`0` event number like `None`, hence the truthiness guard). -/
def would_swap_improve (st : EngineState) (s : Swimmer) (new_event : Event) : Bool :=
  let worstOpt := find_worst_event_for_swimmer st s
  if ¬ optNatTruthy worstOpt then false
  else
    match worstOpt with
    | none => false
    | some worst_num =>
      match st.findEvent worst_num with
      | none => false
      | some worst_event =>
        let worst_contrib := calculate_swimmer_contribution st s worst_event
        let new_contrib := estimate_swimmer_contribution st s new_event
        (worst_contrib.add (.fin (mkRat 1 20))).lt new_contrib

/-- `RelayOptimizer.find_replacement_swimmer`. -/
def find_replacement_swimmer (st : EngineState) (current_swimmers : List Swimmer)
    (ev : Event) : Option Swimmer :=
  let eligible := get_eligible_swimmers st ev
  let eligible : List Swimmer :=
    match ev.gender_type with
    | .mixed =>
      let men_count := current_swimmers.countP (fun s => s.gender = .male)
      let women_count := current_swimmers.countP (fun s => s.gender = .female)
      if men_count < 2 then eligible.filter (fun s => s.gender == .male)
      else if women_count < 2 then eligible.filter (fun s => s.gender == .female)
      else eligible
    | .mens => eligible.filter (fun s => s.gender == .male)
    | .womens => eligible.filter (fun s => s.gender == .female)
  let available := eligible.filter (fun s =>
    ¬ current_swimmers.any (fun c => c.sid == s.sid) &&
    decide ((st.eventsOf s.sid).length < s.max_events))
  (available.foldl
    (fun (acc : Option Swimmer × XQ) s =>
      let time := get_swimmer_best_time_for_event s ev
      if time.lt acc.2 then (some s, time) else acc)
    (none, .pinf)).1

/-- `RelayOptimizer.find_weakest_swimmer_in_team` (note: the source keeps the
swimmer with the *smallest* leg time under strict `<`). -/
def find_weakest_swimmer_in_team (t : Team) (ev : Event) : Option Swimmer :=
  (t.swimmers.foldl
    (fun (acc : Option Swimmer × XQ) s =>
      let time := get_swimmer_time_for_event s ev t
      if time.lt acc.2 then (some s, time) else acc)
    (none, .pinf)).1

/-- `RelayOptimizer.can_swimmer_join_event`. -/
def can_swimmer_join_event (st : EngineState) (s : Swimmer) (ev : Event) : Bool :=
  let strokesOk : Bool :=
    match ev.stroke_type with
    | .freestyle => s.can_swim .free && s.has_time_for .free ev.distance
    | .medley => medleyStrokes.any (fun stroke =>
        s.can_swim stroke && s.has_time_for stroke ev.distance)
  if ¬ s.available_for ev.session then false
  else if ev.gender_type = .mens ∧ s.gender ≠ .male then false
  else if ev.gender_type = .womens ∧ s.gender ≠ .female then false
  else if ¬ strokesOk then false
  else
    match st.solutionTeam ev.event_number with
    | none => true
    | some team =>
      if ev.gender_type = .mixed then
        let men := team.swimmers.countP (·.gender = .male)
        let women := team.swimmers.countP (·.gender = .female)
        if s.gender = .male ∧ 2 ≤ men then false
        else if s.gender = .female ∧ 2 ≤ women then false
        else true
      else true

/-- `RelayOptimizer.remove_swimmer_from_event`. -/
def remove_swimmer_from_event (st : EngineState) (s : Swimmer) (event_num : Nat) :
    EngineState :=
  match st.solutionTeam event_num with
  | none => st
  | some team =>
    if ¬ (team.swimmers.any (fun w => w.sid == s.sid)) then st
    else
      match st.findEvent event_num with
      | none => st
      | some ev =>
        let remaining := team.swimmers.filter (fun w => w.sid ≠ s.sid)
        let st := st.setEvents s.sid (setDiscard (st.eventsOf s.sid) event_num)
        match find_replacement_swimmer st remaining ev with
        | some repl =>
          let remaining2 := remaining ++ [repl]
          match createValidTeam st.assignedOf remaining2 ev with
          | some new_team =>
            let st := { st with solution := alistSet st.solution event_num (some new_team) }
            st.setEvents repl.sid (setAdd (st.eventsOf repl.sid) event_num)
          | none => st
        | none => { st with solution := alistSet st.solution event_num none }

/-- `RelayOptimizer.find_any_valid_team`. -/
def find_any_valid_team (st : EngineState) (ev : Event) : Option Team :=
  let eligible := get_eligible_swimmers st ev
  let eligible : List Swimmer :=
    match ev.gender_type with
    | .mens => eligible.filter (fun s => s.gender == .male)
    | .womens => eligible.filter (fun s => s.gender == .female)
    | .mixed => eligible
  let available := eligible.filter (fun s =>
    decide ((st.eventsOf s.sid).length < s.max_events))
  if available.length < 4 then none
  else
    match ev.gender_type with
    | .mixed =>
      let men := available.filter (fun s => s.gender == .male)
      let women := available.filter (fun s => s.gender == .female)
      if 2 ≤ men.length ∧ 2 ≤ women.length then
        createValidTeam st.assignedOf (men.take 2 ++ women.take 2) ev
      else none
    | _ => createValidTeam st.assignedOf (available.take 4) ev

/-- Bookkeeping shared by every installation site:
`self.swimmer_events[s].add(n); s.events_assigned = len(...)`. -/
def EngineState.trackAdd (st : EngineState) (sid : Nat) (event_num : Nat) : EngineState :=
  st.setEvents sid (setAdd (st.eventsOf sid) event_num)

/-- `RelayOptimizer.add_swimmer_to_event`. -/
def add_swimmer_to_event (st : EngineState) (s : Swimmer) (ev : Event) :
    Bool × EngineState :=
  match st.solutionTeam ev.event_number with
  | none =>
    match find_any_valid_team st ev with
    | some new_team =>
      let st := { st with solution := alistSet st.solution ev.event_number (some new_team) }
      (true, new_team.swimmers.foldl (fun st w => st.trackAdd w.sid ev.event_number) st)
    | none => (false, st)
  | some team =>
    if 4 ≤ team.swimmers.length then
      match find_weakest_swimmer_in_team team ev with
      | some weakest =>
        let remaining := team.swimmers.filter (fun w => w.sid ≠ weakest.sid) ++ [s]
        match createValidTeam st.assignedOf remaining ev with
        | some new_team =>
          let st := { st with solution := alistSet st.solution ev.event_number (some new_team) }
          let st := st.setEvents weakest.sid (setDiscard (st.eventsOf weakest.sid) ev.event_number)
          (true, st.trackAdd s.sid ev.event_number)
        | none => (false, st)
      | none => (false, st)
    else
      match createValidTeam st.assignedOf (team.swimmers ++ [s]) ev with
      | some new_team =>
        let st := { st with solution := alistSet st.solution ev.event_number (some new_team) }
        (true, st.trackAdd s.sid ev.event_number)
      | none => (false, st)

/-- The auto-swap block of `find_best_team_for_event`, run each time a
candidate becomes the best so far: every member currently at their event
limit is removed from their worst-held event on the spot. -/
def autoSwapTeam (st : EngineState) (team : Team) : EngineState :=
  team.swimmers.foldl
    (fun st s =>
      if (st.eventsOf s.sid).length = s.max_events then
        let worst_event := find_worst_event_for_swimmer st s
        if optNatTruthy worst_event then
          remove_swimmer_from_event st s (worst_event.getD 0)
        else st
      else st)
    st

/-- One candidate of the enumeration loops of `find_best_team_for_event`:
build a team, compare its z-score against the best so far, and on
improvement record it and run the auto-swap block. -/
def bestTeamFold (ev : Event) (acc : Option Team × XQ × EngineState)
    (cand : List Swimmer) : Option Team × XQ × EngineState :=
  let st := acc.2.2
  match createValidTeam st.assignedOf cand ev with
  | none => acc
  | some team =>
    let z := calculate_z_score st team ev
    if acc.2.1.lt z then (some team, z, autoSwapTeam st team) else acc

/-- `RelayOptimizer.find_best_team_for_event`.  Returns the chosen team and
the (possibly mutated, via auto-swaps) engine state. -/
def find_best_team_for_event (st : EngineState) (ev : Event) :
    Option Team × EngineState :=
  let eligible := get_eligible_swimmers st ev
  let eligible : List Swimmer :=
    match ev.gender_type with
    | .mens => eligible.filter (fun s => s.gender == .male)
    | .womens => eligible.filter (fun s => s.gender == .female)
    | .mixed => eligible
  let available := eligible.filter (fun s =>
    let event_count := (st.eventsOf s.sid).length
    decide (event_count < s.max_events) ||
      (event_count == s.max_events && would_swap_improve st s ev))
  if available.length < 4 then (none, st)
  else
    let key := fun (a b : Swimmer) =>
      (get_swimmer_best_time_for_event a ev).lt (get_swimmer_best_time_for_event b ev)
    match ev.gender_type with
    | .mixed =>
      let men := available.filter (fun s => s.gender == .male)
      let women := available.filter (fun s => s.gender == .female)
      if men.length < 2 ∨ women.length < 2 then (none, st)
      else
        let men := sortByLt key men
        let women := sortByLt key women
        let r := (combos 2 (men.take 20)).foldl
          (fun acc mc =>
            (combos 2 (women.take 20)).foldl
              (fun acc wc => bestTeamFold ev acc (mc ++ wc)) acc)
          (none, .ninf, st)
        (r.1, r.2.2)
    | _ =>
      let avail := sortByLt key available
      let r := (combos 4 (avail.take 30)).foldl (bestTeamFold ev) (none, .ninf, st)
      (r.1, r.2.2)

/-- `RelayOptimizer.try_improve_swimmer` (one Phase-3 iteration). -/
def try_improve_swimmer (g : Oracle) (st : EngineState) : Bool × EngineState :=
  let candidates := st.swimmers.filter (fun s => 1 ≤ (st.eventsOf s.sid).length)
  if candidates.isEmpty then (false, st)
  else
    let (idxs, st) := st.draw g
    match chooseO (idxs.headD 0) candidates with
    | none => (false, st)
    | some s =>
      let worstOpt := find_worst_event_for_swimmer st s
      if ¬ optNatTruthy worstOpt then (false, st)
      else
        let worst_num := worstOpt.getD 0
        match st.findEvent worst_num with
        | none => (false, st)
        | some worst_event =>
          let worst_contribution := calculate_swimmer_contribution st s worst_event
          let current := st.eventsOf s.sid
          let potential := st.events.filter (fun e => ¬ current.contains e.event_number)
          let best := potential.foldl
            (fun (acc : Option Event × XQ) e =>
              if ¬ can_swimmer_join_event st s e then acc
              else
                let improvement :=
                  (estimate_swimmer_contribution st s e).sub worst_contribution
                if acc.2.lt improvement then (some e, improvement) else acc)
            (none, .fin 0)
          match best.1 with
          | some best_new_event =>
            if (XQ.fin (mkRat 1 100)).lt best.2 then
              let st := remove_swimmer_from_event st s worst_num
              add_swimmer_to_event st s best_new_event
            else (false, st)
          | none => (false, st)

/-- The Phase-3 loop skeleton of `optimize`: up to `fuel` iterations of
`step`, breaking as soon as the consecutive-no-improvement counter exceeds
100.  Also returns the number of iterations executed. -/
def improveLoop {σ : Type} (step : σ → Bool × σ) :
    Nat → Nat → σ → σ × Nat
  | 0, _, st => (st, 0)
  | fuel + 1, no_improvement_count, st =>
    let r0 := step st
    if r0.1 then
      let r := improveLoop step fuel 0 r0.2
      (r.1, r.2 + 1)
    else if 100 < no_improvement_count + 1 then (r0.2, 1)
    else
      let r := improveLoop step fuel (no_improvement_count + 1) r0.2
      (r.1, r.2 + 1)

/-- Phase 3 of `optimize`: `for iteration in range(1000)` around
`try_improve_swimmer` with the early-stop counter. -/
def phase3 (g : Oracle) (st : EngineState) : EngineState × Nat :=
  improveLoop (try_improve_swimmer g) 1000 0 st

/-- The attempt loop (`for _ in range(50)`) of
`RelayOptimizer.generate_random_team`. -/
def generateRandomTeamGo (g : Oracle) (ev : Event) (target : Int × Int)
    (eligible : List Swimmer) : Nat → EngineState → Option Team × EngineState
  | 0, st => (none, st)
  | fuel + 1, st =>
    match ev.gender_type with
    | .mixed =>
      let men := eligible.filter (fun s => s.gender == .male)
      let women := eligible.filter (fun s => s.gender == .female)
      if 2 ≤ men.length ∧ 2 ≤ women.length then
        let (i1, st) := st.draw g
        let (i2, st) := st.draw g
        let selected := sampleO i1 men 2 ++ sampleO i2 women 2
        match createValidTeam st.assignedOf selected ev with
        | some team =>
          if team.age_group st.todayYear == target then (some team, st)
          else generateRandomTeamGo g ev target eligible fuel st
        | none => generateRandomTeamGo g ev target eligible fuel st
      else (none, st)
    | _ =>
      let (i1, st) := st.draw g
      let selected := sampleO i1 eligible 4
      match createValidTeam st.assignedOf selected ev with
      | some team =>
        if team.age_group st.todayYear == target then (some team, st)
        else generateRandomTeamGo g ev target eligible fuel st
      | none => generateRandomTeamGo g ev target eligible fuel st

/-- `RelayOptimizer.generate_random_team`. -/
def generate_random_team (g : Oracle) (st : EngineState) (ev : Event)
    (target : Int × Int) : Option Team × EngineState :=
  let eligible := get_eligible_swimmers st ev
  let eligible : List Swimmer :=
    match ev.gender_type with
    | .mens => eligible.filter (fun s => s.gender == .male)
    | .womens => eligible.filter (fun s => s.gender == .female)
    | .mixed => eligible
  if eligible.length < 4 then (none, st)
  else generateRandomTeamGo g ev target eligible 50 st

/-- The sampling loop of `generate_baselines` for one (event, band) pair:
`n` simulations, recording the completion time of each random team that is
legal and lands in the band (a time is recorded only when finite). -/
def collectTimes (g : Oracle) (ev : Event) (grp : Int × Int) :
    Nat → EngineState → List ℚ × EngineState
  | 0, st => ([], st)
  | n + 1, st =>
    let r0 := generate_random_team g st ev grp
    let r := collectTimes g ev grp n r0.2
    match r0.1 with
    | some team =>
      match team.calculate_time with
      | .fin q => (q :: r.1, r.2)
      | _ => (r.1, r.2)
    | none => r

/-- The age-group list local to `generate_baselines` (same seven bands as
`AGE_GROUPS`, duplicated in the source). -/
def optimizerAgeGroups : List (Int × Int) :=
  [(72, 99), (100, 119), (120, 159), (160, 199), (200, 239), (240, 279), (280, 319)]

/-- The per-event band loop of `generate_baselines`: a `Baseline` is stored
for a band exactly when at least 10 samples were recorded. -/
def bandsGo (g : Oracle) (ev : Event) :
    List (Int × Int) → EngineState → List ((Int × Int) × Baseline) × EngineState
  | [], st => ([], st)
  | grp :: rest, st =>
    let rt := collectTimes g ev grp 100 st
    let r := bandsGo g ev rest rt.2
    if 10 ≤ rt.1.length then
      ((grp, ⟨npMean rt.1, npStd rt.1, rt.1.length⟩) :: r.1, r.2)
    else r

/-- `RelayOptimizer.generate_baselines` (with its default
`n_simulations = 100`, the value `optimize` uses). -/
def generate_baselines (g : Oracle) (st : EngineState) : EngineState :=
  let st := { st with baselines := [] }
  st.events.foldl
    (fun st ev =>
      let r := bandsGo g ev optimizerAgeGroups st
      { r.2 with baselines := alistSet r.2.baselines ev.event_number r.1 })
    st

/-- `models/team.py` `TeamAssignment`. -/
structure TeamAssignment where
  event : Event
  team : Team
  age_group : Int × Int
  expected_time : XQ
  expected_points : ℚ
  z_score : XQ
deriving Repr

/-- `models/result.py` `OptimizationResult`. -/
structure OptimizationResult where
  assignments : List TeamAssignment := []
  total_expected_points : ℚ := 0
  events_skipped : List String := []
  warnings : List String := []
  swimmer_event_counts : List (String × Nat) := []
deriving Repr

/-- `OptimizationResult.add_assignment` (updates the per-participant final
usage counts keyed by swimmer name). -/
def OptimizationResult.add_assignment (r : OptimizationResult) (a : TeamAssignment) :
    OptimizationResult :=
  let r := { r with
    assignments := r.assignments ++ [a]
    total_expected_points := qadd r.total_expected_points a.expected_points }
  a.team.swimmers.foldl
    (fun r s =>
      let counts := alistSet r.swimmer_event_counts s.name
        ((alistGet r.swimmer_event_counts s.name).getD 0 + 1)
      { r with swimmer_event_counts := counts })
    r

/-- `OptimizationResult.add_skipped_event`. -/
def OptimizationResult.add_skipped_event (r : OptimizationResult)
    (event_name reason : String) : OptimizationResult :=
  { r with events_skipped := r.events_skipped ++ [event_name ++ ": " ++ reason] }

/-- One Phase-1 step of `optimize`: install the best team for the event and
update the tracking tables. -/
def phase1Step (st : EngineState) (ev : Event) : EngineState :=
  let r := find_best_team_for_event st ev
  match r.1 with
  | some team =>
    let st := { r.2 with solution := alistSet r.2.solution ev.event_number (some team) }
    team.swimmers.foldl (fun st s => st.trackAdd s.sid ev.event_number) st
  | none => r.2

/-- Phase 1 of `optimize` (initial greedy assignment, events in input
order). -/
def phase1 (st : EngineState) : EngineState :=
  st.events.foldl phase1Step st

/-- One Phase-2 step of `optimize`: gap-fill an event that has no team. -/
def phase2Step (st : EngineState) (ev : Event) : EngineState :=
  match st.solutionTeam ev.event_number with
  | some _ => st
  | none =>
    match find_any_valid_team st ev with
    | some team =>
      let st := { st with solution := alistSet st.solution ev.event_number (some team) }
      team.swimmers.foldl (fun st s => st.trackAdd s.sid ev.event_number) st
    | none => st

/-- Phase 2 of `optimize`. -/
def phase2 (st : EngineState) : EngineState :=
  st.events.foldl phase2Step st

/-- Phase 4 of `optimize`: emit an `Assignment` per filled slot and a skip
record per unfilled slot. -/
def finalizeResult (st : EngineState) : OptimizationResult :=
  st.events.foldl
    (fun r ev =>
      match st.solutionTeam ev.event_number with
      | some team =>
        r.add_assignment
          ⟨ev, team, team.age_group st.todayYear, team.calculate_time, 0,
            calculate_z_score st team ev⟩
      | none => r.add_skipped_event ev.event_name "Could not form valid team")
    {}

/-- `RelayOptimizer.__init__` followed by the local state `optimize` sets up:
empty per-swimmer event sets, the dataclass-default `events_assigned`
values, no baselines, an empty solution dict. -/
def initState (swimmers : List Swimmer) (events : List Event) (todayYear : Int) :
    EngineState where
  swimmers := swimmers
  events := events
  todayYear := todayYear
  baselines := []
  swimmer_events := swimmers.map (fun s => (s.sid, []))
  assigned := swimmers.map (fun s => (s.sid, s.events_assigned0))
  solution := []
  randPos := 0

/-- Phases 1–4 of `RelayOptimizer.optimize` (everything after baseline
generation). -/
def optimizeCore (g : Oracle) (st : EngineState) : OptimizationResult × EngineState :=
  let st := phase1 st
  let st := phase2 st
  let st := (phase3 g st).1
  (finalizeResult st, st)

/-- `RelayOptimizer.optimize` on a fresh `RelayOptimizer(swimmers, events)`:
baseline generation followed by the assignment phases.  The progress
callback performs no state change and is omitted. -/
def optimize (g : Oracle) (swimmers : List Swimmer) (events : List Event)
    (todayYear : Int) : OptimizationResult × EngineState :=
  optimizeCore g (generate_baselines g (initState swimmers events todayYear))


/-!
## A concrete run violating the participant quota

The roster below contains Stone (`sS`, `max_events = 1`) plus seven helpers;
event 1 is a morning men's freestyle relay, event 2 an afternoon men's medley
relay.  With the oracle `c1G`, `generate_baselines` produces exactly the
baselines recorded in `c1Base` (the run is deterministic: every sampled event-1
quartet is {Stone, Ames, Birch, Cole} with time 126, so that band gets mean
126 and deviation 0; the event-2 samples alternate between
{Stone, Dale, Elm, Fox} (time 190) and {Stone, Dale, Elm, Gray} (time 230),
giving mean 210 and deviation 20; 30100 draws per event, so Phase 1 starts at
position 60200).  During Phase 1, Stone is first assigned to event 1; while
event 2 is processed, `would_swap_improve` admits Stone (estimate 8.5 > 0.05),
the first candidate team becomes best, and the auto-swap removes Stone from
event 1 -- but `find_replacement_swimmer` picks Stone as their own
replacement, so Stone is back on event 1 when `optimize` then installs the
returned event-2 team, leaving Stone with two assignments against a quota of
one.  Phase 3 performs 101 non-improving iterations (the oracle always picks
Stone, who already holds both events).
-/

def sS : Swimmer :=
  { sid := 0
    first_name := "Sam"
    last_name := "Stone"
    birth_year := 1986
    birth_month := 6
    birth_day := 15
    gender := .male
    max_events := 1
    times := [((.free, 50), 30), ((.back, 100), 10)] }

def sA : Swimmer :=
  { sid := 1
    first_name := "Al"
    last_name := "Ames"
    birth_year := 1986
    birth_month := 6
    birth_day := 15
    gender := .male
    afternoon_available := false
    times := [((.free, 50), 31)] }

def sB : Swimmer :=
  { sA with sid := 2, first_name := "Bo", last_name := "Birch", times := [((.free, 50), 32)] }

def sC : Swimmer :=
  { sA with sid := 3, first_name := "Cy", last_name := "Cole", times := [((.free, 50), 33)] }

def sD : Swimmer :=
  { sid := 4
    first_name := "Dan"
    last_name := "Dale"
    birth_year := 1986
    birth_month := 6
    birth_day := 15
    gender := .male
    morning_available := false
    times := [((.breast, 100), 50)] }

def sE : Swimmer :=
  { sD with sid := 5, first_name := "Ed", last_name := "Elm", times := [((.fly, 100), 50)] }

def sF : Swimmer :=
  { sD with sid := 6, first_name := "Fred", last_name := "Fox", times := [((.free, 100), 80)] }

def sG : Swimmer :=
  { sD with sid := 7, first_name := "Gil", last_name := "Gray", times := [((.free, 100), 120)] }

def c1Swimmers : List Swimmer := [sS, sA, sB, sC, sD, sE, sF, sG]

def c1Ev1 : Event :=
  { event_number := 1
    event_name := "E1"
    session := .am
    gender_type := .mens
    stroke_type := .freestyle
    distance := 50 }

def c1Ev2 : Event :=
  { event_number := 2
    event_name := "E2"
    session := .pm
    gender_type := .mens
    stroke_type := .medley
    distance := 100 }

def c1Events : List Event := [c1Ev1, c1Ev2]

def c1G : Oracle := fun n => if n % 2 = 0 then [0, 0, 0, 0] else [0, 0, 0, 1]

def c1Base : EngineState :=
  { swimmers := c1Swimmers
    events := c1Events
    todayYear := 2026
    baselines := [(1, [((160, 199), ⟨126, 0, 100⟩)]), (2, [((160, 199), ⟨210, 20, 100⟩)])]
    swimmer_events := [(0, []), (1, []), (2, []), (3, []), (4, []), (5, []), (6, []), (7, [])]
    assigned := [(0, 0), (1, 0), (2, 0), (3, 0), (4, 0), (5, 0), (6, 0), (7, 0)]
    solution := []
    randPos := 60200 }


/-!
## Determinising the `c1G` run

The lemmas below follow `generate_baselines` through the `c1G` oracle run
step by step and show that it produces exactly the literal state `c1Base`,
so the claim theorems can be stated about `optimize` itself.
-/

/-- `randPos` advance (proof-side shorthand). -/
def bump (st : EngineState) (n : Nat) : EngineState :=
  { st with randPos := st.randPos + n }

/-- The fields of the quota-run state that baseline generation reads. -/
def c1Inv (st : EngineState) : Prop :=
  st.swimmers = c1Swimmers ∧ st.todayYear = 2026 ∧
    st.assigned = [(0, 0), (1, 0), (2, 0), (3, 0), (4, 0), (5, 0), (6, 0), (7, 0)]

lemma bump_zero (st : EngineState) : bump st 0 = st := by
  cases st
  rfl

lemma bump_bump (st : EngineState) (a b : Nat) : bump (bump st a) b = bump st (a + b) := by
  cases st
  simp [bump, Nat.add_assoc]

lemma c1Inv_bump (st : EngineState) (n : Nat) (h : c1Inv st) : c1Inv (bump st n) := h

lemma bump_randPos (st : EngineState) (n : Nat) : (bump st n).randPos = st.randPos + n := rfl

lemma c1G_even (n : Nat) (h : n % 2 = 0) : c1G n = [0, 0, 0, 0] := by
  simp [c1G, h]

lemma c1G_odd (n : Nat) (h : n % 2 = 1) : c1G n = [0, 0, 0, 1] := by
  simp [c1G, h]

lemma c1_eligible_ev1 (st : EngineState) (h : c1Inv st) :
    get_eligible_swimmers st c1Ev1 = [sS, sA, sB, sC] := by
  unfold get_eligible_swimmers
  rw [h.1]
  rfl

lemma c1_eligible_ev2 (st : EngineState) (h : c1Inv st) :
    get_eligible_swimmers st c1Ev2 = [sS, sD, sE, sF, sG] := by
  unfold get_eligible_swimmers
  rw [h.1]
  rfl

lemma c1_assignedOf_fun (st : EngineState) (h : c1Inv st) :
    st.assignedOf = fun s =>
      (alistGet [(0, 0), (1, 0), (2, 0), (3, 0), (4, 0), (5, 0), (6, 0), (7, 0)] s.sid).getD
        s.events_assigned0 := by
  funext s
  unfold EngineState.assignedOf
  rw [h.2.2]

lemma c1_create_ev1 (st : EngineState) (h : c1Inv st) :
    createValidTeam st.assignedOf [sS, sA, sB, sC] c1Ev1 =
      some ⟨[sS, sA, sB, sC], c1Ev1⟩ := by
  rw [c1_assignedOf_fun st h]
  rfl

lemma c1_create_ev2_f (aOf : Swimmer → Nat) :
    createValidTeam aOf [sS, sD, sE, sF] c1Ev2 = some ⟨[sS, sD, sE, sF], c1Ev2⟩ := by
  rfl

lemma c1_create_ev2_g (aOf : Swimmer → Nat) :
    createValidTeam aOf [sS, sD, sE, sG] c1Ev2 = some ⟨[sS, sD, sE, sG], c1Ev2⟩ := by
  rfl

lemma go_ev1_succ (grp : Int × Int) (fuel : Nat) (st : EngineState) :
    generateRandomTeamGo c1G c1Ev1 grp [sS, sA, sB, sC] (fuel + 1) st =
      (match createValidTeam ({st with randPos := st.randPos + 1} : EngineState).assignedOf
          (sampleO (c1G st.randPos) [sS, sA, sB, sC] 4) c1Ev1 with
      | some team =>
        if team.age_group st.todayYear == grp
          then (some team, ({st with randPos := st.randPos + 1} : EngineState))
          else generateRandomTeamGo c1G c1Ev1 grp [sS, sA, sB, sC] fuel
            ({st with randPos := st.randPos + 1} : EngineState)
      | none => generateRandomTeamGo c1G c1Ev1 grp [sS, sA, sB, sC] fuel
            ({st with randPos := st.randPos + 1} : EngineState)) := rfl

lemma c1_go_ev1 (grp : Int × Int) :
    ∀ (fuel : Nat) (st : EngineState), c1Inv st →
      generateRandomTeamGo c1G c1Ev1 grp [sS, sA, sB, sC] fuel st =
        (if grp = (160, 199) ∧ fuel ≠ 0 then (some ⟨[sS, sA, sB, sC], c1Ev1⟩, bump st 1)
         else (none, bump st fuel)) := by
  intro fuel
  induction fuel with
  | zero =>
    intro st h
    rw [if_neg (by simp), bump_zero]
    rfl
  | succ fuel ih =>
    intro st h
    have h1 : c1Inv {st with randPos := st.randPos + 1} := h
    have hcond : ∀ gr : Int × Int,
        (Team.age_group st.todayYear ⟨[sS, sA, sB, sC], c1Ev1⟩ == gr)
          = ((((160 : Int), (199 : Int)) : Int × Int) == gr) := by
      intro gr
      rw [h.2.1]
      rfl
    rw [go_ev1_succ]
    rcases Nat.mod_two_eq_zero_or_one st.randPos with hp | hp
    · rw [c1G_even _ hp]
      rw [show sampleO [0, 0, 0, 0] [sS, sA, sB, sC] 4 = [sS, sA, sB, sC] from rfl]
      rw [c1_create_ev1 _ h1]
      dsimp only []
      rw [hcond grp]
      by_cases hg : grp = ((160 : Int), (199 : Int))
      · subst hg
        rw [if_pos (by decide)]
        rw [if_pos ⟨rfl, Nat.succ_ne_zero fuel⟩]
        rfl
      · rw [if_neg (by simpa using fun hco => hg hco.symm)]
        rw [ih _ h1]
        rw [if_neg (by simp [hg])]
        rw [show ({st with randPos := st.randPos + 1} : EngineState) = bump st 1 from rfl,
          bump_bump]
        rw [if_neg (by simp [hg])]
        rw [Nat.add_comm 1 fuel]
    · rw [c1G_odd _ hp]
      rw [show sampleO [0, 0, 0, 1] [sS, sA, sB, sC] 4 = [sS, sA, sB, sC] from rfl]
      rw [c1_create_ev1 _ h1]
      dsimp only []
      rw [hcond grp]
      by_cases hg : grp = ((160 : Int), (199 : Int))
      · subst hg
        rw [if_pos (by decide)]
        rw [if_pos ⟨rfl, Nat.succ_ne_zero fuel⟩]
        rfl
      · rw [if_neg (by simpa using fun hco => hg hco.symm)]
        rw [ih _ h1]
        rw [if_neg (by simp [hg])]
        rw [show ({st with randPos := st.randPos + 1} : EngineState) = bump st 1 from rfl,
          bump_bump]
        rw [if_neg (by simp [hg])]
        rw [Nat.add_comm 1 fuel]

lemma go_ev2_succ (grp : Int × Int) (fuel : Nat) (st : EngineState) :
    generateRandomTeamGo c1G c1Ev2 grp [sS, sD, sE, sF, sG] (fuel + 1) st =
      (match createValidTeam ({st with randPos := st.randPos + 1} : EngineState).assignedOf
          (sampleO (c1G st.randPos) [sS, sD, sE, sF, sG] 4) c1Ev2 with
      | some team =>
        if team.age_group st.todayYear == grp
          then (some team, ({st with randPos := st.randPos + 1} : EngineState))
          else generateRandomTeamGo c1G c1Ev2 grp [sS, sD, sE, sF, sG] fuel
            ({st with randPos := st.randPos + 1} : EngineState)
      | none => generateRandomTeamGo c1G c1Ev2 grp [sS, sD, sE, sF, sG] fuel
            ({st with randPos := st.randPos + 1} : EngineState)) := rfl

lemma c1_go_ev2_nomatch (grp : Int × Int) (hg : grp ≠ ((160 : Int), (199 : Int))) :
    ∀ (fuel : Nat) (st : EngineState), c1Inv st →
      generateRandomTeamGo c1G c1Ev2 grp [sS, sD, sE, sF, sG] fuel st =
        (none, bump st fuel) := by
  intro fuel
  induction fuel with
  | zero =>
    intro st h
    rw [bump_zero]
    rfl
  | succ fuel ih =>
    intro st h
    have h1 : c1Inv {st with randPos := st.randPos + 1} := h
    have hcondF :
        (Team.age_group st.todayYear ⟨[sS, sD, sE, sF], c1Ev2⟩ == grp)
          = ((((160 : Int), (199 : Int)) : Int × Int) == grp) := by
      rw [h.2.1]
      rfl
    have hcondG :
        (Team.age_group st.todayYear ⟨[sS, sD, sE, sG], c1Ev2⟩ == grp)
          = ((((160 : Int), (199 : Int)) : Int × Int) == grp) := by
      rw [h.2.1]
      rfl
    rw [go_ev2_succ]
    rcases Nat.mod_two_eq_zero_or_one st.randPos with hp | hp
    · rw [c1G_even _ hp]
      rw [show sampleO [0, 0, 0, 0] [sS, sD, sE, sF, sG] 4 = [sS, sD, sE, sF] from rfl]
      rw [c1_create_ev2_f]
      dsimp only []
      rw [hcondF]
      rw [if_neg (by simpa using fun hco => hg hco.symm)]
      rw [ih _ h1]
      rw [show ({st with randPos := st.randPos + 1} : EngineState) = bump st 1 from rfl,
        bump_bump, Nat.add_comm 1 fuel]
    · rw [c1G_odd _ hp]
      rw [show sampleO [0, 0, 0, 1] [sS, sD, sE, sF, sG] 4 = [sS, sD, sE, sG] from rfl]
      rw [c1_create_ev2_g]
      dsimp only []
      rw [hcondG]
      rw [if_neg (by simpa using fun hco => hg hco.symm)]
      rw [ih _ h1]
      rw [show ({st with randPos := st.randPos + 1} : EngineState) = bump st 1 from rfl,
        bump_bump, Nat.add_comm 1 fuel]

lemma c1_go_ev2_match (fuel : Nat) (st : EngineState) (h : c1Inv st) :
    generateRandomTeamGo c1G c1Ev2 ((160 : Int), (199 : Int)) [sS, sD, sE, sF, sG]
        (fuel + 1) st =
      (some (if st.randPos % 2 = 0 then ⟨[sS, sD, sE, sF], c1Ev2⟩
             else ⟨[sS, sD, sE, sG], c1Ev2⟩), bump st 1) := by
  have hcondF :
      (Team.age_group st.todayYear ⟨[sS, sD, sE, sF], c1Ev2⟩
          == (((160 : Int), (199 : Int)) : Int × Int)) = true := by
    rw [h.2.1]
    rfl
  have hcondG :
      (Team.age_group st.todayYear ⟨[sS, sD, sE, sG], c1Ev2⟩
          == (((160 : Int), (199 : Int)) : Int × Int)) = true := by
    rw [h.2.1]
    rfl
  rw [go_ev2_succ]
  rcases Nat.mod_two_eq_zero_or_one st.randPos with hp | hp
  · rw [c1G_even _ hp]
    rw [show sampleO [0, 0, 0, 0] [sS, sD, sE, sF, sG] 4 = [sS, sD, sE, sF] from rfl]
    rw [c1_create_ev2_f]
    dsimp only []
    rw [hcondF, if_pos rfl, if_pos hp]
    rfl
  · rw [c1G_odd _ hp]
    rw [show sampleO [0, 0, 0, 1] [sS, sD, sE, sF, sG] 4 = [sS, sD, sE, sG] from rfl]
    rw [c1_create_ev2_g]
    dsimp only []
    rw [hcondG, if_pos rfl, if_neg (by omega)]
    rfl

lemma grt_ev1_eq (st : EngineState) (grp : Int × Int) :
    generate_random_team c1G st c1Ev1 grp =
      (if (List.filter (fun s => s.gender == Gender.male)
            (get_eligible_swimmers st c1Ev1)).length < 4
        then (none, st)
        else generateRandomTeamGo c1G c1Ev1 grp
          (List.filter (fun s => s.gender == Gender.male)
            (get_eligible_swimmers st c1Ev1)) 50 st) := rfl

lemma grt_ev2_eq (st : EngineState) (grp : Int × Int) :
    generate_random_team c1G st c1Ev2 grp =
      (if (List.filter (fun s => s.gender == Gender.male)
            (get_eligible_swimmers st c1Ev2)).length < 4
        then (none, st)
        else generateRandomTeamGo c1G c1Ev2 grp
          (List.filter (fun s => s.gender == Gender.male)
            (get_eligible_swimmers st c1Ev2)) 50 st) := rfl

lemma c1_grt_ev1 (st : EngineState) (h : c1Inv st) (grp : Int × Int) :
    generate_random_team c1G st c1Ev1 grp =
      (if grp = ((160 : Int), (199 : Int)) then (some ⟨[sS, sA, sB, sC], c1Ev1⟩, bump st 1)
       else (none, bump st 50)) := by
  rw [grt_ev1_eq, c1_eligible_ev1 st h]
  rw [show List.filter (fun s => s.gender == Gender.male) [sS, sA, sB, sC]
      = [sS, sA, sB, sC] from rfl]
  rw [if_neg (by decide)]
  rw [c1_go_ev1 grp 50 st h]
  by_cases hg : grp = ((160 : Int), (199 : Int))
  · rw [if_pos ⟨hg, by decide⟩, if_pos hg]
  · rw [if_neg (by simp [hg]), if_neg hg]

lemma c1_grt_ev2 (st : EngineState) (h : c1Inv st) (grp : Int × Int) :
    generate_random_team c1G st c1Ev2 grp =
      (if grp = ((160 : Int), (199 : Int)) then
        (some (if st.randPos % 2 = 0 then ⟨[sS, sD, sE, sF], c1Ev2⟩
               else ⟨[sS, sD, sE, sG], c1Ev2⟩), bump st 1)
       else (none, bump st 50)) := by
  rw [grt_ev2_eq, c1_eligible_ev2 st h]
  rw [show List.filter (fun s => s.gender == Gender.male) [sS, sD, sE, sF, sG]
      = [sS, sD, sE, sF, sG] from rfl]
  rw [if_neg (by decide)]
  by_cases hg : grp = ((160 : Int), (199 : Int))
  · subst hg
    rw [show (50 : Nat) = 49 + 1 from rfl, c1_go_ev2_match 49 st h, if_pos rfl]
  · rw [c1_go_ev2_nomatch grp hg 50 st h, if_neg hg]

/-- Alternating medley simulation times: starting from an even (`true`) or odd
(`false`) oracle position, the sampled ev2 teams alternate 190 / 230 seconds. -/
def altT : Bool → Nat → List ℚ
  | _, 0 => []
  | true, n + 1 => (190 : ℚ) :: altT false n
  | false, n + 1 => (230 : ℚ) :: altT true n

lemma collectTimes_succ (g : Oracle) (ev : Event) (grp : Int × Int) (n : Nat)
    (st : EngineState) :
    collectTimes g ev grp (n + 1) st =
      (match (generate_random_team g st ev grp).1 with
      | some team =>
        match team.calculate_time with
        | .fin q => (q :: (collectTimes g ev grp n (generate_random_team g st ev grp).2).1,
            (collectTimes g ev grp n (generate_random_team g st ev grp).2).2)
        | _ => collectTimes g ev grp n (generate_random_team g st ev grp).2
      | none => collectTimes g ev grp n (generate_random_team g st ev grp).2) := rfl

lemma c1_collect_ev1_match :
    ∀ (n : Nat) (st : EngineState), c1Inv st →
      collectTimes c1G c1Ev1 ((160 : Int), (199 : Int)) n st =
        (List.replicate n (126 : ℚ), bump st n) := by
  intro n
  induction n with
  | zero =>
    intro st h
    rw [bump_zero]
    rfl
  | succ n ih =>
    intro st h
    rw [collectTimes_succ, c1_grt_ev1 st h _, if_pos rfl]
    try dsimp only []
    rw [show Team.calculate_time ⟨[sS, sA, sB, sC], c1Ev1⟩ = XQ.fin (126 : ℚ) from rfl]
    try dsimp only []
    rw [ih (bump st 1) (c1Inv_bump st 1 h), bump_bump, Nat.add_comm 1 n]
    rfl

lemma c1_collect_ev1_nomatch (grp : Int × Int) (hg : grp ≠ ((160 : Int), (199 : Int))) :
    ∀ (n : Nat) (st : EngineState), c1Inv st →
      collectTimes c1G c1Ev1 grp n st = ([], bump st (50 * n)) := by
  intro n
  induction n with
  | zero =>
    intro st h
    rw [Nat.mul_zero, bump_zero]
    rfl
  | succ n ih =>
    intro st h
    rw [collectTimes_succ, c1_grt_ev1 st h _, if_neg hg]
    try dsimp only []
    rw [ih (bump st 50) (c1Inv_bump st 50 h), bump_bump]
    rw [show 50 + 50 * n = 50 * (n + 1) from by ring]

lemma c1_collect_ev2_match :
    ∀ (n : Nat) (st : EngineState), c1Inv st →
      collectTimes c1G c1Ev2 ((160 : Int), (199 : Int)) n st =
        (altT (decide (st.randPos % 2 = 0)) n, bump st n) := by
  intro n
  induction n with
  | zero =>
    intro st h
    rw [bump_zero]
    cases decide (st.randPos % 2 = 0) <;> rfl
  | succ n ih =>
    intro st h
    rw [collectTimes_succ, c1_grt_ev2 st h _, if_pos rfl]
    try dsimp only []
    rcases Nat.mod_two_eq_zero_or_one st.randPos with hp | hp
    · rw [if_pos hp]
      try dsimp only []
      rw [show Team.calculate_time ⟨[sS, sD, sE, sF], c1Ev2⟩ = XQ.fin (190 : ℚ) from rfl]
      try dsimp only []
      rw [ih (bump st 1) (c1Inv_bump st 1 h), bump_bump, Nat.add_comm 1 n]
      rw [show (bump st 1).randPos = st.randPos + 1 from rfl]
      rw [decide_eq_true hp, show (decide ((st.randPos + 1) % 2 = 0)) = false from
        decide_eq_false (by omega)]
      rfl
    · rw [if_neg (by omega)]
      try dsimp only []
      rw [show Team.calculate_time ⟨[sS, sD, sE, sG], c1Ev2⟩ = XQ.fin (230 : ℚ) from rfl]
      try dsimp only []
      rw [ih (bump st 1) (c1Inv_bump st 1 h), bump_bump, Nat.add_comm 1 n]
      rw [show (bump st 1).randPos = st.randPos + 1 from rfl]
      rw [show (decide (st.randPos % 2 = 0)) = false from decide_eq_false (by omega),
        show (decide ((st.randPos + 1) % 2 = 0)) = true from decide_eq_true (by omega)]
      rfl

lemma c1_collect_ev2_nomatch (grp : Int × Int) (hg : grp ≠ ((160 : Int), (199 : Int))) :
    ∀ (n : Nat) (st : EngineState), c1Inv st →
      collectTimes c1G c1Ev2 grp n st = ([], bump st (50 * n)) := by
  intro n
  induction n with
  | zero =>
    intro st h
    rw [Nat.mul_zero, bump_zero]
    rfl
  | succ n ih =>
    intro st h
    rw [collectTimes_succ, c1_grt_ev2 st h _, if_neg hg]
    try dsimp only []
    rw [ih (bump st 50) (c1Inv_bump st 50 h), bump_bump]
    rw [show 50 + 50 * n = 50 * (n + 1) from by ring]

set_option maxRecDepth 200000

lemma bandsGo_cons (g : Oracle) (ev : Event) (grp : Int × Int)
    (rest : List (Int × Int)) (st : EngineState) :
    bandsGo g ev (grp :: rest) st =
      (if 10 ≤ (collectTimes g ev grp 100 st).1.length then
        ((grp, ⟨npMean (collectTimes g ev grp 100 st).1,
            npStd (collectTimes g ev grp 100 st).1,
            (collectTimes g ev grp 100 st).1.length⟩) ::
          (bandsGo g ev rest (collectTimes g ev grp 100 st).2).1,
          (bandsGo g ev rest (collectTimes g ev grp 100 st).2).2)
      else bandsGo g ev rest (collectTimes g ev grp 100 st).2) := rfl

lemma c1_collect_ev1_nomatch100 (grp : Int × Int)
    (hg : grp ≠ ((160 : Int), (199 : Int))) (st : EngineState) (h : c1Inv st) :
    collectTimes c1G c1Ev1 grp 100 st = ([], bump st 5000) := by
  rw [c1_collect_ev1_nomatch grp hg 100 st h]

lemma c1_collect_ev2_nomatch100 (grp : Int × Int)
    (hg : grp ≠ ((160 : Int), (199 : Int))) (st : EngineState) (h : c1Inv st) :
    collectTimes c1G c1Ev2 grp 100 st = ([], bump st 5000) := by
  rw [c1_collect_ev2_nomatch grp hg 100 st h]

lemma c1_bands_ev1 (st : EngineState) (h : c1Inv st) :
    bandsGo c1G c1Ev1 optimizerAgeGroups st =
      ([((160, 199), ⟨126, 0, 100⟩)], bump st 30100) := by
  rw [show optimizerAgeGroups =
    (((72 : Int), (99 : Int)) : Int × Int) :: ((100, 119) : Int × Int) ::
    ((120, 159) : Int × Int) :: ((160, 199) : Int × Int) :: ((200, 239) : Int × Int) ::
    ((240, 279) : Int × Int) :: ((280, 319) : Int × Int) :: [] from rfl]
  rw [bandsGo_cons, c1_collect_ev1_nomatch100 _ (by decide) st h]
  try dsimp only []
  rw [if_neg (by decide)]
  rw [bandsGo_cons, c1_collect_ev1_nomatch100 _ (by decide) (bump st 5000)
    (c1Inv_bump st 5000 h), bump_bump]
  try dsimp only []
  rw [if_neg (by decide)]
  rw [bandsGo_cons, c1_collect_ev1_nomatch100 _ (by decide) (bump st 10000)
    (c1Inv_bump st 10000 h), bump_bump]
  try dsimp only []
  rw [if_neg (by decide)]
  rw [bandsGo_cons, c1_collect_ev1_match 100 (bump st 15000) (c1Inv_bump st 15000 h),
    bump_bump]
  try dsimp only []
  rw [if_pos (by decide)]
  rw [bandsGo_cons, c1_collect_ev1_nomatch100 _ (by decide) (bump st 15100)
    (c1Inv_bump st 15100 h), bump_bump]
  try dsimp only []
  rw [if_neg (by decide)]
  rw [bandsGo_cons, c1_collect_ev1_nomatch100 _ (by decide) (bump st 20100)
    (c1Inv_bump st 20100 h), bump_bump]
  try dsimp only []
  rw [if_neg (by decide)]
  rw [bandsGo_cons, c1_collect_ev1_nomatch100 _ (by decide) (bump st 25100)
    (c1Inv_bump st 25100 h), bump_bump]
  try dsimp only []
  rw [if_neg (by decide)]
  rw [show bandsGo c1G c1Ev1 [] (bump st 30100) = ([], bump st 30100) from rfl]
  rw [show npMean (List.replicate 100 (126 : ℚ)) = (126 : ℚ) from rfl]
  rw [show npStd (List.replicate 100 (126 : ℚ)) = (0 : ℚ) from rfl]
  rw [show (List.replicate 100 (126 : ℚ)).length = 100 from rfl]

lemma c1_bands_ev2 (st : EngineState) (h : c1Inv st) (hp : st.randPos % 2 = 0) :
    bandsGo c1G c1Ev2 optimizerAgeGroups st =
      ([((160, 199), ⟨210, 20, 100⟩)], bump st 30100) := by
  rw [show optimizerAgeGroups =
    (((72 : Int), (99 : Int)) : Int × Int) :: ((100, 119) : Int × Int) ::
    ((120, 159) : Int × Int) :: ((160, 199) : Int × Int) :: ((200, 239) : Int × Int) ::
    ((240, 279) : Int × Int) :: ((280, 319) : Int × Int) :: [] from rfl]
  rw [bandsGo_cons, c1_collect_ev2_nomatch100 _ (by decide) st h]
  try dsimp only []
  rw [if_neg (by decide)]
  rw [bandsGo_cons, c1_collect_ev2_nomatch100 _ (by decide) (bump st 5000)
    (c1Inv_bump st 5000 h), bump_bump]
  try dsimp only []
  rw [if_neg (by decide)]
  rw [bandsGo_cons, c1_collect_ev2_nomatch100 _ (by decide) (bump st 10000)
    (c1Inv_bump st 10000 h), bump_bump]
  try dsimp only []
  rw [if_neg (by decide)]
  rw [bandsGo_cons, c1_collect_ev2_match 100 (bump st 15000) (c1Inv_bump st 15000 h),
    bump_bump]
  rw [show (decide ((bump st 15000).randPos % 2 = 0)) = true from
    decide_eq_true (by rw [bump_randPos]; omega)]
  try dsimp only []
  rw [if_pos (by decide)]
  rw [bandsGo_cons, c1_collect_ev2_nomatch100 _ (by decide) (bump st 15100)
    (c1Inv_bump st 15100 h), bump_bump]
  try dsimp only []
  rw [if_neg (by decide)]
  rw [bandsGo_cons, c1_collect_ev2_nomatch100 _ (by decide) (bump st 20100)
    (c1Inv_bump st 20100 h), bump_bump]
  try dsimp only []
  rw [if_neg (by decide)]
  rw [bandsGo_cons, c1_collect_ev2_nomatch100 _ (by decide) (bump st 25100)
    (c1Inv_bump st 25100 h), bump_bump]
  try dsimp only []
  rw [if_neg (by decide)]
  rw [show bandsGo c1G c1Ev2 [] (bump st 30100) = ([], bump st 30100) from rfl]
  rw [show npMean (altT true 100) = (210 : ℚ) from rfl]
  rw [show npStd (altT true 100) = (20 : ℚ) from rfl]
  rw [show (altT true 100).length = 100 from rfl]

lemma gb_two_events (g : Oracle) (st : EngineState) (hev : st.events = [c1Ev1, c1Ev2]) :
    generate_baselines g st =
      (let st1 : EngineState := { st with baselines := [] }
       let r1 := bandsGo g c1Ev1 optimizerAgeGroups st1
       let st2 : EngineState :=
         { r1.2 with baselines := alistSet r1.2.baselines c1Ev1.event_number r1.1 }
       let r2 := bandsGo g c1Ev2 optimizerAgeGroups st2
       { r2.2 with baselines := alistSet r2.2.baselines c1Ev2.event_number r2.1 }) := by
  unfold generate_baselines
  try dsimp only []
  rw [show ({ st with baselines := ([] : List (Nat × List ((Int × Int) × Baseline))) }
      : EngineState).events = st.events from rfl]
  rw [hev]
  rw [List.foldl_cons, List.foldl_cons, List.foldl_nil]

lemma c1Inv_init : c1Inv ({ initState c1Swimmers c1Events 2026 with baselines := [] }) :=
  ⟨rfl, rfl, rfl⟩

lemma c1_baselines :
    generate_baselines c1G (initState c1Swimmers c1Events 2026) = c1Base := by
  rw [gb_two_events c1G _ rfl]
  try dsimp only []
  rw [c1_bands_ev1 _ c1Inv_init]
  try dsimp only []
  rw [c1_bands_ev2 _ (by exact ⟨rfl, rfl, rfl⟩) (by rfl)]
  rfl

/-- Claim C1 (code bug): the engine's own docstring promises "never violate
constraints" and the spec requires every participant's final usage count to
stay within `max_events`, yet in the run described above Stone
(`max_events = 1`) ends up referenced by 2 of the returned assignments, and
the result's own usage-count table records 2.  `c1Base` is exactly
`generate_baselines c1G (initState c1Swimmers c1Events 2026)`, so this is the
tail of a complete `optimize` run. -/
theorem c1_quota_violated_in_run :
    alistGet (optimize c1G c1Swimmers c1Events 2026).1.swimmer_event_counts sS.name
      = some 2 ∧
    (optimize c1G c1Swimmers c1Events 2026).1.assignments.countP
      (fun a => a.team.swimmers.any (fun w => w.sid == sS.sid)) = 2 ∧
    sS.max_events = 1 := by
  unfold optimize
  rw [c1_baselines]
  exact ⟨rfl, rfl, rfl⟩

/-- Claim C2 (code bug): the spec's testable property "Team Builder
validation on the assigned Team must report legal" fails on the same run: the
first returned assignment (event 1, team Ames/Birch/Cole/Stone) fails
`Team.validate` under the final counters, because Stone is past their event
limit -- indeed Stone genuinely holds two assignments with `max_events = 1`. -/
theorem c2_finalized_team_fails_validate :
    ((optimize c1G c1Swimmers c1Events 2026).1.assignments.head?.map
      (fun a => (a.team.validate
        (optimize c1G c1Swimmers c1Events 2026).2.assignedOf).1)) =
      some false := by
  unfold optimize
  rw [c1_baselines]
  exact rfl

/-!
## A statically impossible mixed slot

An all-male roster with a mixed-composition slot: the spec calls for a
precondition failure reported before search, but `optimize` contains no such
check -- the slot simply falls through every phase and is reported as an
ordinary skip record, for every oracle.
-/

def m1 : Swimmer :=
  { sid := 10
    first_name := "Hal"
    last_name := "Hart"
    birth_year := 1990
    birth_month := 3
    birth_day := 2
    gender := .male
    times := [((.free, 50), 28)] }

def m2 : Swimmer :=
  { m1 with sid := 11, first_name := "Ian", last_name := "Ivey", times := [((.free, 50), 29)] }

def m3 : Swimmer :=
  { m1 with sid := 12, first_name := "Joe", last_name := "Judd", times := [((.free, 50), 30)] }

def m4 : Swimmer :=
  { m1 with sid := 13, first_name := "Ken", last_name := "Kidd", times := [((.free, 50), 31)] }

def c7Swimmers : List Swimmer := [m1, m2, m3, m4]

def c7Event : Event :=
  { event_number := 1
    event_name := "Mixed Relay"
    session := .am
    gender_type := .mixed
    stroke_type := .freestyle
    distance := 50 }

def c7Events : List Event := [c7Event]


/-- The state `generate_baselines` produces on the all-male mixed input: no
band ever collects a sample (the sampler bails out before drawing), so the
single event maps to an empty baseline table and no oracle draw is consumed. -/
def c7Base : EngineState :=
  { swimmers := c7Swimmers
    events := c7Events
    todayYear := 2026
    baselines := [(1, [])]
    swimmer_events := [(10, []), (11, []), (12, []), (13, [])]
    assigned := [(10, 0), (11, 0), (12, 0), (13, 0)]
    solution := []
    randPos := 0 }

lemma c7_grt (g : Oracle) (st : EngineState) (grp : Int × Int)
    (h : st.swimmers = c7Swimmers) :
    generate_random_team g st c7Event grp = (none, st) := by
  unfold generate_random_team get_eligible_swimmers
  rw [h]
  simp [generateRandomTeamGo, c7Event, c7Swimmers, m1, m2, m3, m4]

lemma c7_collect (g : Oracle) (st : EngineState) (grp : Int × Int) (n : Nat)
    (h : st.swimmers = c7Swimmers) :
    collectTimes g c7Event grp n st = ([], st) := by
  induction n with
  | zero => rfl
  | succ n ih =>
    unfold collectTimes
    rw [c7_grt g st grp h]
    simpa using ih

lemma c7_bands (g : Oracle) (st : EngineState) (h : st.swimmers = c7Swimmers) :
    bandsGo g c7Event optimizerAgeGroups st = ([], st) := by
  unfold optimizerAgeGroups
  simp [bandsGo, c7_collect, h]

lemma c7_baselines (g : Oracle) :
    generate_baselines g (initState c7Swimmers c7Events 2026) = c7Base := by
  unfold generate_baselines c7Events
  simp only [List.foldl]
  rw [c7_bands]
  · rfl
  · rfl

/-- If one Phase-3 iteration leaves the state unchanged without improvement,
the whole bounded loop leaves it unchanged. -/
lemma improveLoop_fixed {σ : Type} (step : σ → Bool × σ) (st : σ)
    (h : step st = (false, st)) :
    ∀ fuel noImp, (improveLoop step fuel noImp st).1 = st := by
  intro fuel
  induction fuel with
  | zero => intro noImp; rfl
  | succ fuel ih =>
    intro noImp
    unfold improveLoop
    rw [h]
    by_cases hc : 100 < noImp + 1
    · simp [hc]
    · simp [hc, ih]

lemma c7_phase12 : phase2 (phase1 c7Base) = c7Base := by rfl

lemma c7_tryimprove (g : Oracle) : try_improve_swimmer g c7Base = (false, c7Base) := by
  rfl

/-- Claim C7 counterexample: on a roster with zero women and a
mixed-composition slot, `optimize` runs to completion and reports the slot in
the ordinary skip list with the generic reason string -- there is no
precondition failure, no distinct error, nothing reported before search. -/
theorem c7_no_precondition_failure :
    (optimize (fun _ => []) c7Swimmers c7Events 2026).1.events_skipped =
      ["Mixed Relay: Could not form valid team"] ∧
    (optimize (fun _ => []) c7Swimmers c7Events 2026).1.assignments = [] := by
  unfold optimize
  rw [c7_baselines]
  simp only [optimizeCore, phase3]
  rw [c7_phase12, improveLoop_fixed _ _ (c7_tryimprove _)]
  exact ⟨rfl, rfl⟩

/-- Claim C7 amended: the engine performs no static precondition check; a
slot whose composition requirement is impossible against the roster is
handled like any other unfillable slot -- the run completes normally (for
every sequence of random draws) and the slot is reported as a non-fatal skip
record with the same reason string as every other unfilled slot. -/
theorem c7_impossible_slot_is_ordinary_skip (g : Oracle) :
    (optimize g c7Swimmers c7Events 2026).1.events_skipped =
      ["Mixed Relay: Could not form valid team"] ∧
    (optimize g c7Swimmers c7Events 2026).1.assignments = [] ∧
    (optimize g c7Swimmers c7Events 2026).1.warnings = [] := by
  unfold optimize
  rw [c7_baselines]
  simp only [optimizeCore, phase3]
  rw [c7_phase12, improveLoop_fixed _ _ (c7_tryimprove _)]
  exact ⟨rfl, rfl, rfl⟩


/-!
## Phase-1 search mutates other slots while evaluating candidates

A state in mid-run: Xia (at their limit of 1, currently on the morning slot-8
freestyle team with a 29s Free/50 time) is admitted to the slot-9 candidate
pool through `would_swap_improve`; the first legal candidate contains Xia and
becomes the provisional best, which immediately removes Xia from slot 8 and
rebuilds that team around the replacement Wood (the fastest remaining
morning Free/50 swimmer); a later candidate without Xia scores higher and is
the one returned, but the slot-8 rebuild and Xia's removal persist.  Every
time the run consults is present (each slot-8 swimmer holds a Free/50 time,
each slot-9 candidate a 100m stroke time), so no `None`-totalisation is
exercised anywhere on this input.
-/

def sX : Swimmer :=
  { sid := 20
    first_name := "Xu"
    last_name := "Xia"
    birth_year := 1986
    birth_month := 6
    birth_day := 15
    gender := .male
    max_events := 1
    times := [((.back, 100), 5), ((.free, 100), 2), ((.free, 50), 29)] }

def sK : Swimmer :=
  { sX with
    sid := 21
    first_name := "Kim"
    last_name := "Koch"
    max_events := 6
    morning_available := false
    times := [((.free, 100), 1)] }

def sH : Swimmer :=
  { sK with sid := 22, first_name := "Hans", last_name := "Hill", times := [((.back, 100), 3)] }

def sD' : Swimmer :=
  { sK with sid := 23, first_name := "Don", last_name := "Dunn", times := [((.breast, 100), 50)] }

def sE' : Swimmer :=
  { sK with sid := 24, first_name := "Eli", last_name := "East", times := [((.fly, 100), 50)] }

def sP1 : Swimmer :=
  { sX with
    sid := 25
    first_name := "Pat"
    last_name := "Pine"
    max_events := 6
    afternoon_available := false
    times := [((.free, 50), 30)] }

def sP2 : Swimmer :=
  { sP1 with sid := 26, first_name := "Quin", last_name := "Quay", times := [((.free, 50), 31)] }

def sP3 : Swimmer :=
  { sP1 with sid := 27, first_name := "Rob", last_name := "Reed", times := [((.free, 50), 32)] }

def sY : Swimmer :=
  { sP1 with sid := 28, first_name := "Wes", last_name := "Wood", times := [((.free, 50), 28)] }

def c10Ev8 : Event :=
  { event_number := 8
    event_name := "E8"
    session := .am
    gender_type := .mens
    stroke_type := .freestyle
    distance := 50 }

def c10Ev9 : Event :=
  { event_number := 9
    event_name := "E9"
    session := .pm
    gender_type := .mens
    stroke_type := .medley
    distance := 100 }

def c10Team8 : Team := ⟨[sX, sP1, sP2, sP3], c10Ev8⟩

def c10St : EngineState :=
  { swimmers := [sX, sK, sH, sD', sE', sP1, sP2, sP3, sY]
    events := [c10Ev8, c10Ev9]
    todayYear := 2026
    baselines := [(9, [((160, 199), ⟨200, 1, 100⟩)])]
    swimmer_events := [(20, [8]), (21, []), (22, []), (23, []), (24, []), (25, [8]), (26, [8]), (27, [8]), (28, [])]
    assigned := [(20, 1), (21, 0), (22, 0), (23, 0), (24, 0), (25, 1), (26, 1), (27, 1), (28, 0)]
    solution := [(8, some c10Team8)]
    randPos := 0 }

/-- Claim C10: `find_best_team_for_event` mutates the shared solution map and
usage tables while merely evaluating candidates.  On the state above, the
returned team is Hill/Dunn/East/Koch -- it does not contain Xia -- yet the
call removed Xia from slot 8 (Xia was at their limit inside a provisional
best candidate that was later surpassed) and installed a rebuilt slot-8 team
Pine/Quay/Reed/Wood in the shared solution; Xia's removal and Wood's
induction persist in the returned state. -/
theorem c10_search_mutates_other_slots :
    ((find_best_team_for_event c10St c10Ev9).1.map
      (fun t => t.swimmers.map (fun w => w.sid))) = some [22, 23, 24, 21] ∧
    ((find_best_team_for_event c10St c10Ev9).1.map
      (fun t => t.swimmers.any (fun w => w.sid == sX.sid))) = some false ∧
    c10St.solutionTeam 8 = some c10Team8 ∧
    alistGet (find_best_team_for_event c10St c10Ev9).2.solution 8 =
      some (some ⟨[sP1, sP2, sP3, sY], c10Ev8⟩) ∧
    c10St.eventsOf sX.sid = [8] ∧
    (find_best_team_for_event c10St c10Ev9).2.eventsOf sX.sid = [] ∧
    (find_best_team_for_event c10St c10Ev9).2.eventsOf sY.sid = [8] := by
  exact ⟨rfl, rfl, rfl, rfl, rfl, rfl, rfl⟩


/-- Claim C8: the result-band function is total on the summed age, always
returns one of the seven fixed non-overlapping bands covering 72-319, sends
every total below 72 (with the whole range below 100) to the lowest band and
every total at or above 320 (with the whole range from 280 up) to the highest
band, and `Team.age_group` is exactly this function of `Team.total_age`. -/
theorem c8_age_group_total_and_clamped (total : Int) (t : Team) (y : Int) :
    ageGroupOfTotal total ∈ AGE_GROUPS ∧
    ageGroupOfTotal total =
      (if total < 100 then ((72 : Int), (99 : Int))
       else if total < 120 then (100, 119)
       else if total < 160 then (120, 159)
       else if total < 200 then (160, 199)
       else if total < 240 then (200, 239)
       else if total < 280 then (240, 279)
       else (280, 319)) ∧
    Team.age_group y t = ageGroupOfTotal (t.total_age y) := by
  refine ⟨?_, ?_, rfl⟩
  · unfold ageGroupOfTotal AGE_GROUPS
    simp only [List.find?]
    split
    · rename_i g heq
      repeat' split at heq
      all_goals simp_all
    · rename_i heq
      split <;> simp
  · unfold ageGroupOfTotal AGE_GROUPS
    simp only [List.find?]
    split
    · rename_i g heq
      repeat' split at heq
      all_goals try cases heq
      all_goals
        simp only [Bool.and_eq_true, decide_eq_true_eq, Bool.and_eq_false_iff,
          decide_eq_false_iff_not] at *
      all_goals split_ifs <;> first | rfl | omega
    · rename_i heq
      repeat' split at heq
      all_goals try cases heq
      all_goals
        simp only [Bool.and_eq_true, decide_eq_true_eq, Bool.and_eq_false_iff,
          decide_eq_false_iff_not] at *
      all_goals split_ifs <;> first | rfl | omega


/-- Claim C4: `calculate_z_score` returns 0 when the (slot, band) pair has no
Baseline (either the slot is absent from the table or the band is), returns 0
when the Baseline's standard deviation is 0, and otherwise returns
(mean - team time) / std; the division is reached only under the `std ≠ 0`
guard, so no division by zero is ever performed.  The second conjunct states
the non-degenerate case with the ordinary field operations on `ℚ`. -/
theorem c4_z_score_guarded (st : EngineState) (t : Team) (ev : Event) :
    (calculate_z_score st t ev =
      match alistGet ((alistGet st.baselines ev.event_number).getD [])
          (t.age_group st.todayYear) with
      | none => XQ.fin 0
      | some b =>
        if b.std_time = 0 then XQ.fin 0
        else XQ.div (XQ.sub (XQ.fin b.mean_time) t.calculate_time) (XQ.fin b.std_time)) ∧
    (∀ b q, alistGet ((alistGet st.baselines ev.event_number).getD [])
          (t.age_group st.todayYear) = some b →
      b.std_time ≠ 0 → t.calculate_time = XQ.fin q →
      calculate_z_score st t ev = XQ.fin ((b.mean_time - q) / b.std_time)) := by
  constructor
  · unfold calculate_z_score
    cases h : alistGet st.baselines ev.event_number <;> simp [h, alistGet, List.find?]
  · intro b q hb hstd htime
    unfold calculate_z_score
    cases h : alistGet st.baselines ev.event_number with
    | none =>
      rw [h] at hb
      simp [alistGet] at hb
    | some eb =>
      rw [h] at hb
      simp only [Option.getD_some] at hb
      simp only [hb, htime, if_neg hstd]
      simp only [XQ.sub, XQ.add, XQ.neg, XQ.div, if_neg hstd]
      rw [qadd_eq, qneg_eq, qdiv_eq]
      ring_nf

/-- Witness for the claim-C4 theorem: the event-2 medley team of the quota
run scores (210 - 190) / 20 = 1 against its stored baseline. -/
theorem c4_z_score_witness :
    calculate_z_score c1Base ⟨[sS, sD, sE, sF], c1Ev2⟩ c1Ev2 =
      XQ.fin ((210 - 190) / 20) := by
  exact (c4_z_score_guarded c1Base ⟨[sS, sD, sE, sF], c1Ev2⟩ c1Ev2).2
    ⟨210, 20, 100⟩ 190 (by rfl) (by norm_num) (by rfl)


lemma improveLoop_le {σ : Type} (step : σ → Bool × σ) :
    ∀ fuel noImp st, (improveLoop step fuel noImp st).2 ≤ fuel := by
  intro fuel
  induction fuel with
  | zero => intro noImp st; exact le_refl 0
  | succ n ih =>
    intro noImp st
    unfold improveLoop
    by_cases h : (step st).1
    · simp only [h, if_true]
      exact Nat.succ_le_succ (ih 0 (step st).2)
    · simp only [h, if_false]
      by_cases hc : 100 < noImp + 1
      · simp only [hc, if_true]
        exact Nat.succ_le_succ (Nat.zero_le n)
      · simp only [hc, if_false]
        exact Nat.succ_le_succ (ih (noImp + 1) (step st).2)

lemma improveLoop_allfalse {σ : Type} (step : σ → Bool × σ)
    (hf : ∀ s, (step s).1 = false) :
    ∀ fuel noImp st, noImp ≤ 100 →
      (improveLoop step fuel noImp st).2 = min fuel (101 - noImp) := by
  intro fuel
  induction fuel with
  | zero => intro noImp st _; simp [improveLoop]
  | succ n ih =>
    intro noImp st hle
    unfold improveLoop
    rw [if_neg (by simp [hf])]
    by_cases hc : 100 < noImp + 1
    · rw [if_pos hc]
      simp only []
      omega
    · rw [if_neg hc]
      simp only []
      rw [ih (noImp + 1) (step st).2 (by omega)]
      omega

/-- Claim C6 counterexample: a Phase-3 run in which no iteration ever
improves executes 101 iterations, not 100 -- the loop breaks only when the
consecutive-no-improvement counter exceeds 100, so "stops once 100
consecutive iterations produce no improvement" is off by one. -/
theorem c6_early_stop_off_by_one :
    (improveLoop (fun (s : Unit) => (false, s)) 1000 0 ()).2 = 101 ∧
    (improveLoop (fun (s : Unit) => (false, s)) 1000 0 ()).2 ≠ 100 := by
  constructor
  · rfl
  · decide

/-- Claim C6 amended: `optimize`'s Phase-3 loop (`phase3`, an instance of
`improveLoop` at fuel 1000 and counter 0) always terminates, executes at most
1000 iterations, and stops early after exactly 101 consecutive non-improving
iterations (when the counter exceeds 100). -/
theorem c6_bounded_iterations {σ : Type} (step : σ → Bool × σ) (st : σ)
    (g : Oracle) (est : EngineState) :
    (improveLoop step 1000 0 st).2 ≤ 1000 ∧
    ((∀ s, (step s).1 = false) → (improveLoop step 1000 0 st).2 = 101) ∧
    phase3 g est = improveLoop (try_improve_swimmer g) 1000 0 est := by
  refine ⟨improveLoop_le step 1000 0 st, ?_, rfl⟩
  intro hf
  rw [improveLoop_allfalse step hf 1000 0 st (by omega)]
  rfl

/-- Witness for the claim-C6 theorem at a concrete never-improving step. -/
theorem c6_bounded_iterations_witness :
    (improveLoop (fun (s : Nat) => (false, s)) 1000 0 7).2 ≤ 1000 ∧
    (improveLoop (fun (s : Nat) => (false, s)) 1000 0 7).2 = 101 := by
  refine ⟨(c6_bounded_iterations (fun (s : Nat) => (false, s)) 7 (fun _ => [])
    (initState [] [] 0)).1, ?_⟩
  exact (c6_bounded_iterations (fun (s : Nat) => (false, s)) 7 (fun _ => [])
    (initState [] [] 0)).2.1 (fun _ => rfl)


lemma selects_snd_len {α : Type} :
    ∀ (l : List α) (p : α × List α), p ∈ selects l → p.2.length + 1 = l.length := by
  intro l
  induction l with
  | nil => intro p hp; simp [selects] at hp
  | cons x xs ih =>
    intro p hp
    simp only [selects, List.mem_cons, List.mem_map] at hp
    rcases hp with rfl | ⟨q, hq, rfl⟩
    · simp
    · have := ih q hq
      simp only [List.length_cons]
      omega

lemma permsGo_len {α : Type} :
    ∀ (n : Nat) (l : List α) (p : List α), p ∈ permsGo n l → p.length = n := by
  intro n
  induction n with
  | zero =>
    intro l p hp
    simp [permsGo] at hp
    simp [hp]
  | succ n ih =>
    intro l p hp
    simp only [permsGo, List.mem_flatMap, List.mem_map] at hp
    rcases hp with ⟨q, _, r, hr, rfl⟩
    simp [ih q.2 r hr]

lemma perms_len {α : Type} (l : List α) (p : List α) (hp : p ∈ perms l) :
    p.length = l.length :=
  permsGo_len l.length l p hp

lemma medleyStep_ok (ev : Event) (acc : Option Team × XQ) (p : List Swimmer)
    (h4 : p.length = 4) : ∃ b, medleyStep ev acc p = .ok b := by
  unfold medleyStep
  split
  · refine ⟨(some ⟨p, ev⟩, .fin (medleyTime ev.distance p)), ?_⟩
    unfold mkTeamE
    rw [if_neg (by omega)]
    rfl
  · exact ⟨acc, rfl⟩

lemma medleyFoldM_ok (ev : Event) :
    ∀ (ps : List (List Swimmer)) (acc : Option Team × XQ),
      (∀ p ∈ ps, p.length = 4) →
      ∃ r, ps.foldlM (medleyStep ev) acc = .ok r := by
  intro ps
  induction ps with
  | nil => intro acc _; exact ⟨acc, rfl⟩
  | cons p ps ih =>
    intro acc h4
    obtain ⟨b, hb⟩ := medleyStep_ok ev acc p (h4 p (by simp))
    obtain ⟨r, hr⟩ := ih b (fun q hq => h4 q (by simp [hq]))
    refine ⟨r, ?_⟩
    rw [List.foldlM_cons, hb]
    exact hr

/-- Claim C9: the `Team` constructor raises exactly when the swimmer list
does not have length 4, so every constructed team has four swimmers;
`create_valid_team` guards the length up front (returning no team for other
lengths) and only ever constructs teams from the guarded list or one of its
permutations, so the constructor's error branch is unreachable from it: the
function never propagates an error. -/
theorem c9_team_constructor_guarded (sw : List Swimmer) (ev : Event)
    (aOf : Swimmer → Nat) :
    (∀ t, mkTeamE sw ev = .ok t → t.swimmers.length = 4) ∧
    ((∃ t, mkTeamE sw ev = .ok t) ↔ sw.length = 4) ∧
    (sw.length ≠ 4 → createValidTeamE aOf sw ev = .ok none) ∧
    (∃ o, createValidTeamE aOf sw ev = .ok o) := by
  refine ⟨?_, ?_, ?_, ?_⟩
  · intro t ht
    unfold mkTeamE at ht
    by_cases h : sw.length ≠ 4
    · rw [if_pos h] at ht; cases ht
    · rw [if_neg h] at ht
      cases ht
      simpa using h
  · constructor
    · rintro ⟨t, ht⟩
      unfold mkTeamE at ht
      by_cases h : sw.length ≠ 4
      · rw [if_pos h] at ht; cases ht
      · simpa using h
    · intro h
      refine ⟨⟨sw, ev⟩, ?_⟩
      unfold mkTeamE
      rw [if_neg (by omega)]
  · intro h
    unfold createValidTeamE
    rw [if_pos h]
  · unfold createValidTeamE
    by_cases h : sw.length ≠ 4
    · rw [if_pos h]; exact ⟨none, rfl⟩
    · rw [if_neg h]
      cases hst : ev.stroke_type with
      | freestyle =>
        refine ⟨if (Team.validate aOf ⟨sw, ev⟩).1 then some ⟨sw, ev⟩ else none, ?_⟩
        unfold mkTeamE
        rw [if_neg h]
        rfl
      | medley =>
        obtain ⟨r, hr⟩ := medleyFoldM_ok ev (perms sw) (none, .pinf)
          (fun p hp => by rw [perms_len sw p hp]; omega)
        refine ⟨r.1, ?_⟩
        rw [hr]
        rfl

/-- Witness for the claim-C9 theorem: on an empty swimmer list the builder
returns `ok none` without touching the constructor. -/
theorem c9_team_constructor_guarded_witness :
    createValidTeamE (fun _ => 0) [] c1Ev1 = .ok none := by
  exact (c9_team_constructor_guarded [] c1Ev1 (fun _ => 0)).2.2.1 (by decide)


lemma alistGet_cons {κ ν : Type} [BEq κ] (k' : κ) (v : ν) (m : List (κ × ν)) (k : κ) :
    alistGet ((k', v) :: m) k = if (k' == k) then some v else alistGet m k := by
  by_cases h : (k' == k) = true
  · simp [alistGet, List.find?, h]
  · simp only [Bool.not_eq_true] at h
    simp [alistGet, List.find?, h]

lemma bandsGo_lookup_min_samples (g : Oracle) (ev : Event) :
    ∀ (groups : List (Int × Int)) (st : EngineState) (grp : Int × Int) (b : Baseline),
      alistGet (bandsGo g ev groups st).1 grp = some b → 10 ≤ b.sample_size := by
  intro groups
  induction groups with
  | nil =>
    intro st grp b hb
    simp [bandsGo, alistGet] at hb
  | cons grp' rest ih =>
    intro st grp b hb
    simp only [bandsGo] at hb
    by_cases hlen : 10 ≤ (collectTimes g ev grp' 100 st).1.length
    · rw [if_pos hlen, alistGet_cons] at hb
      by_cases heq : (grp' == grp) = true
      · rw [if_pos heq] at hb
        cases hb
        exact hlen
      · simp only [Bool.not_eq_true] at heq
        rw [if_neg (by simp [heq])] at hb
        exact ih _ grp b hb
    · rw [if_neg hlen] at hb
      exact ih _ grp b hb

/-- Claim C5: the per-band loop of `generate_baselines` stores a Baseline for
a band exactly when at least 10 completion-time samples were recorded for the
(event, band) pair (first conjunct, the source's storage rule: sample count
below 10 stores nothing, otherwise mean/std/count of the recorded samples are
stored); consequently every Baseline reachable in the table carries at least
10 samples (second conjunct); and scoring any team whose (event, band) pair
has no Baseline yields 0 (third conjunct). -/
theorem c5_min_sample_rule (g : Oracle) (ev : Event) (grp : Int × Int)
    (rest : List (Int × Int)) (st : EngineState) :
    (bandsGo g ev (grp :: rest) st =
      (if 10 ≤ (collectTimes g ev grp 100 st).1.length then
        ((grp, ⟨npMean (collectTimes g ev grp 100 st).1,
                npStd (collectTimes g ev grp 100 st).1,
                (collectTimes g ev grp 100 st).1.length⟩) ::
          (bandsGo g ev rest (collectTimes g ev grp 100 st).2).1,
         (bandsGo g ev rest (collectTimes g ev grp 100 st).2).2)
       else bandsGo g ev rest (collectTimes g ev grp 100 st).2)) ∧
    (∀ groups st' grp' b, alistGet (bandsGo g ev groups st').1 grp' = some b →
      10 ≤ b.sample_size) ∧
    (∀ st' t e, alistGet ((alistGet st'.baselines e.event_number).getD [])
        (t.age_group st'.todayYear) = none →
      calculate_z_score st' t e = XQ.fin 0) := by
  refine ⟨rfl, ?_, ?_⟩
  · intro groups st' grp' b hb
    exact bandsGo_lookup_min_samples g ev groups st' grp' b hb
  · intro st' t e hnone
    unfold calculate_z_score
    cases h : alistGet st'.baselines e.event_number with
    | none => rfl
    | some eb =>
      rw [h] at hnone
      simp only [Option.getD_some] at hnone
      simp only [hnone]

set_option maxRecDepth 40000

/-- Witness for the claim-C5 theorem: a single-band run of the band loop on
the quota roster stores a Baseline with 100 >= 10 samples, and a slot without
any baseline entry scores 0. -/
theorem c5_min_sample_rule_witness :
    10 ≤ (Baseline.mk 126 0 100).sample_size ∧
    calculate_z_score (initState c1Swimmers c1Events 2026) c10Team8 c10Ev8 =
      XQ.fin 0 := by
  constructor
  · exact (c5_min_sample_rule c1G c1Ev1 (72, 99) [] (initState c1Swimmers c1Events 2026)).2.1
      [(160, 199)] (initState c1Swimmers c1Events 2026) (160, 199) ⟨126, 0, 100⟩ (by rfl)
  · exact (c5_min_sample_rule c1G c1Ev1 (72, 99) [] (initState c1Swimmers c1Events 2026)).2.2
      (initState c1Swimmers c1Events 2026) c10Team8 c10Ev8 (by rfl)


/-- Pure mirror of the medley loop of `create_valid_team`, tracking the
chosen ordering instead of the constructed team. -/
def medleyPick (d : Nat) : List (List Swimmer) → Option (List Swimmer) × XQ →
    Option (List Swimmer) × XQ
  | [], acc => acc
  | p :: rest, acc =>
    medleyPick d rest
      (if medleyLegal d p ∧ (XQ.fin (medleyTime d p)).lt acc.2 then
        (some p, .fin (medleyTime d p))
      else acc)

/-- The medley orderings of `create_valid_team` that are legal for the slot,
in enumeration order (from the claim's wording). -/
def legalOrderings (d : Nat) (sw : List Swimmer) : List (List Swimmer) :=
  (perms sw).filter (medleyLegal d)

lemma foldlM_medleyStep_eq_medleyPick (ev : Event) :
    ∀ (ps : List (List Swimmer)) (o : Option (List Swimmer)) (x : XQ),
      (∀ p ∈ ps, p.length = 4) →
      ps.foldlM (medleyStep ev) (o.map (fun p => (⟨p, ev⟩ : Team)), x) =
        .ok ((medleyPick ev.distance ps (o, x)).1.map (fun p => (⟨p, ev⟩ : Team)),
          (medleyPick ev.distance ps (o, x)).2) := by
  intro ps
  induction ps with
  | nil => intro o x _; rfl
  | cons p rest ih =>
    intro o x h4
    rw [List.foldlM_cons]
    unfold medleyStep
    by_cases hc : medleyLegal ev.distance p ∧ (XQ.fin (medleyTime ev.distance p)).lt x
    · rw [if_pos hc]
      unfold mkTeamE
      rw [if_neg (by simp [h4 p (by simp)])]
      show rest.foldlM (medleyStep ev) ((some p).map (fun p => (⟨p, ev⟩ : Team)),
        XQ.fin (medleyTime ev.distance p)) = _
      rw [ih (some p) (.fin (medleyTime ev.distance p)) (fun q hq => h4 q (by simp [hq]))]
      rw [show medleyPick ev.distance (p :: rest) (o, x) =
        medleyPick ev.distance rest (some p, .fin (medleyTime ev.distance p)) from by
          rw [medleyPick, if_pos hc]]
    · rw [if_neg hc]
      show rest.foldlM (medleyStep ev) (o.map (fun p => (⟨p, ev⟩ : Team)), x) = _
      rw [ih o x (fun q hq => h4 q (by simp [hq]))]
      rw [show medleyPick ev.distance (p :: rest) (o, x) =
        medleyPick ev.distance rest (o, x) from by
          rw [medleyPick, if_neg hc]]

lemma calcTimeGo_all_present (d : Nat) :
    ∀ (l : List (Swimmer × Stroke)) (acc : ℚ),
      (∀ x ∈ l, (x.1.get_time x.2 d).isSome) →
      calcTimeGo d acc l = .fin (acc + (qsum (l.map (fun x => (x.1.get_time x.2 d).getD 0)))) := by
  intro l
  induction l with
  | nil => intro acc _; simp [calcTimeGo, qsum, mkRat]
  | cons x rest ih =>
    intro acc hall
    have hx := hall x (by simp)
    unfold calcTimeGo
    cases hgt : x.1.get_time x.2 d with
    | none => rw [hgt] at hx; cases hx
    | some tm =>
      show calcTimeGo d (qadd acc tm) rest = _
      rw [ih (qadd acc tm) (fun y hy => hall y (by simp [hy]))]
      simp only [List.map_cons, qsum, hgt, Option.getD_some, qadd_eq]
      exact congrArg XQ.fin (by ring)

/-- For a legal ordering, the built team's aggregate completion time is the
loop's accumulated sum. -/
lemma calculate_time_of_legal (ev : Event) (p : List Swimmer)
    (hm : ev.stroke_type = .medley) (hleg : medleyLegal ev.distance p) :
    Team.calculate_time ⟨p, ev⟩ = .fin (medleyTime ev.distance p) := by
  unfold Team.calculate_time medleyTime
  have hz : (⟨p, ev⟩ : Team).event.get_strokes = medleyStrokes := by
    simp [Event.get_strokes, hm, medleyStrokes]
  rw [hz]
  unfold medleyLegal at hleg
  rw [calcTimeGo_all_present ev.distance (p.zip medleyStrokes) 0 ?_]
  · rw [show ((0 : ℚ) + qsum ((p.zip medleyStrokes).map (fun x => (x.1.get_time x.2 ev.distance).getD 0))) = qsum ((p.zip medleyStrokes).map (fun x => (x.1.get_time x.2 ev.distance).getD 0)) from by ring]
  · intro x hx
    have := (List.all_eq_true.mp hleg) x hx
    simp only [Bool.and_eq_true] at this
    simpa [Swimmer.has_time_for] using this.2


lemma foldl_min_le_self (l : List ℚ) : ∀ a : ℚ, l.foldl min a ≤ a := by
  induction l with
  | nil => intro a; exact le_refl a
  | cons x xs ih =>
    intro a
    calc (x :: xs).foldl min a = xs.foldl min (min a x) := rfl
    _ ≤ min a x := ih (min a x)
    _ ≤ a := min_le_left a x

lemma foldl_min_le_mem (l : List ℚ) : ∀ (a x : ℚ), x ∈ l → l.foldl min a ≤ x := by
  induction l with
  | nil => intro a x hx; cases hx
  | cons y ys ih =>
    intro a x hx
    rcases List.mem_cons.mp hx with rfl | hx'
    · calc (x :: ys).foldl min a = ys.foldl min (min a x) := rfl
      _ ≤ min a x := foldl_min_le_self ys (min a x)
      _ ≤ x := min_le_right a x
    · exact ih (min a y) x hx'

lemma medleyPick_go (d : Nat) :
    ∀ (ps : List (List Swimmer)) (p₀ : List Swimmer) (t₀ : ℚ),
      ∃ t : ℚ,
        (medleyPick d ps (some p₀, .fin t₀)).2 = .fin t ∧
        t = ((ps.filter (medleyLegal d)).map (medleyTime d)).foldl min t₀ ∧
        (((medleyPick d ps (some p₀, .fin t₀)).1 = some p₀ ∧ t = t₀ ∧
            ps.find? (fun q => medleyLegal d q && decide (medleyTime d q < t₀)) = none) ∨
          (∃ p, (medleyPick d ps (some p₀, .fin t₀)).1 = some p ∧ p ∈ ps ∧
            medleyLegal d p = true ∧ t = medleyTime d p ∧ t < t₀ ∧
            ps.find? (fun q => medleyLegal d q && decide (medleyTime d q ≤ t)) = some p)) := by
  intro ps
  induction ps with
  | nil =>
    intro p₀ t₀
    exact ⟨t₀, rfl, by simp, Or.inl ⟨rfl, rfl, rfl⟩⟩
  | cons q ps ih =>
    intro p₀ t₀
    by_cases hleg : medleyLegal d q = true
    · by_cases hlt : medleyTime d q < t₀
      · have hstep : medleyPick d (q :: ps) (some p₀, .fin t₀) =
            medleyPick d ps (some q, .fin (medleyTime d q)) := by
          rw [medleyPick, if_pos ⟨hleg, by simp [XQ.lt]; exact hlt⟩]
        obtain ⟨t, h2, hfold, hcase⟩ := ih q (medleyTime d q)
        refine ⟨t, by rw [hstep]; exact h2, ?_, ?_⟩
        · rw [hfold]
          simp only [List.filter_cons, hleg, if_true, List.map_cons, List.foldl_cons]
          rw [min_eq_right (le_of_lt hlt)]
        · rcases hcase with ⟨h1, ht, _⟩ | ⟨p, hp1, hpmem, hpleg, hpt, hptlt, hfind⟩
          · refine Or.inr ⟨q, by rw [hstep]; exact h1, List.mem_cons_self q ps, hleg, ht,
              ht ▸ hlt, ?_⟩
            rw [List.find?_cons_of_pos]
            simp [hleg, ht]
          · refine Or.inr ⟨p, by rw [hstep]; exact hp1, List.mem_cons_of_mem q hpmem,
              hpleg, hpt, lt_trans hptlt hlt, ?_⟩
            rw [List.find?_cons_of_neg, hfind]
            simp only [hleg, Bool.true_and, decide_eq_true_eq]
            intro hco
            exact absurd hco (not_le.mpr hptlt)
      · have hstep : medleyPick d (q :: ps) (some p₀, .fin t₀) =
            medleyPick d ps (some p₀, .fin t₀) := by
          rw [medleyPick, if_neg]
          intro hco
          exact hlt (by simpa [XQ.lt] using hco.2)
        obtain ⟨t, h2, hfold, hcase⟩ := ih p₀ t₀
        refine ⟨t, by rw [hstep]; exact h2, ?_, ?_⟩
        · rw [hfold]
          simp only [List.filter_cons, hleg, if_true, List.map_cons, List.foldl_cons]
          rw [min_eq_left (not_lt.mp hlt)]
        · rcases hcase with ⟨h1, ht, hnone⟩ | ⟨p, hp1, hpmem, hpleg, hpt, hptlt, hfind⟩
          · refine Or.inl ⟨by rw [hstep]; exact h1, ht, ?_⟩
            rw [List.find?_cons_of_neg, hnone]
            simp only [hleg, Bool.true_and, decide_eq_true_eq]
            exact hlt
          · refine Or.inr ⟨p, by rw [hstep]; exact hp1, List.mem_cons_of_mem q hpmem,
              hpleg, hpt, hptlt, ?_⟩
            rw [List.find?_cons_of_neg, hfind]
            simp only [hleg, Bool.true_and, decide_eq_true_eq]
            intro hco
            exact absurd (lt_of_le_of_lt hco hptlt) hlt
    · have hstep : medleyPick d (q :: ps) (some p₀, .fin t₀) =
          medleyPick d ps (some p₀, .fin t₀) := by
        rw [medleyPick, if_neg]
        intro hco
        exact hleg hco.1
      obtain ⟨t, h2, hfold, hcase⟩ := ih p₀ t₀
      have hleg' : medleyLegal d q = false := by simpa using hleg
      refine ⟨t, by rw [hstep]; exact h2, ?_, ?_⟩
      · rw [hfold]
        simp [List.filter_cons, hleg']
      · rcases hcase with ⟨h1, ht, hnone⟩ | ⟨p, hp1, hpmem, hpleg, hpt, hptlt, hfind⟩
        · refine Or.inl ⟨by rw [hstep]; exact h1, ht, ?_⟩
          rw [List.find?_cons_of_neg, hnone]
          simp [hleg]
        · refine Or.inr ⟨p, by rw [hstep]; exact hp1, List.mem_cons_of_mem q hpmem,
            hpleg, hpt, hptlt, ?_⟩
          rw [List.find?_cons_of_neg, hfind]
          simp [hleg]


lemma medleyPick_spec (d : Nat) :
    ∀ ps : List (List Swimmer),
      (medleyPick d ps (none, .pinf) = (none, .pinf) ∧ ps.filter (medleyLegal d) = []) ∨
      (∃ p t, medleyPick d ps (none, .pinf) = (some p, .fin t) ∧ p ∈ ps ∧
        medleyLegal d p = true ∧ t = medleyTime d p ∧
        (∀ q ∈ ps, medleyLegal d q = true → t ≤ medleyTime d q) ∧
        ps.find? (fun q => medleyLegal d q && decide (medleyTime d q ≤ t)) = some p) := by
  intro ps
  induction ps with
  | nil => exact Or.inl ⟨rfl, rfl⟩
  | cons q ps ih =>
    by_cases hleg : medleyLegal d q = true
    · have hstep : medleyPick d (q :: ps) (none, .pinf) =
          medleyPick d ps (some q, .fin (medleyTime d q)) := by
        rw [medleyPick, if_pos ⟨hleg, rfl⟩]
      obtain ⟨t, h2, hfold, hcase⟩ := medleyPick_go d ps q (medleyTime d q)
      refine Or.inr ?_
      rcases hcase with ⟨h1, ht, _⟩ | ⟨p, hp1, hpmem, hpleg, hpt, hptlt, hfind⟩
      · refine ⟨q, t, by rw [hstep]; exact Prod.ext h1 h2, List.mem_cons_self q ps, hleg, ?_, ?_, ?_⟩
        · rw [ht]
        · intro r hr hrleg
          rcases List.mem_cons.mp hr with rfl | hr'
          · exact le_of_eq ht
          · rw [hfold]
            exact foldl_min_le_mem _ _ _
              (List.mem_map.mpr ⟨r, List.mem_filter.mpr ⟨hr', hrleg⟩, rfl⟩)
        · rw [List.find?_cons_of_pos]
          simp [hleg, ht]
      · refine ⟨p, t, by rw [hstep]; exact Prod.ext hp1 h2, List.mem_cons_of_mem q hpmem, hpleg,
          hpt, ?_, ?_⟩
        · intro r hr hrleg
          rcases List.mem_cons.mp hr with rfl | hr'
          · exact le_of_lt hptlt
          · rw [hfold]
            exact foldl_min_le_mem _ _ _
              (List.mem_map.mpr ⟨r, List.mem_filter.mpr ⟨hr', hrleg⟩, rfl⟩)
        · rw [List.find?_cons_of_neg, hfind]
          simp only [hleg, Bool.true_and, decide_eq_true_eq]
          exact not_le.mpr hptlt
    · have hleg' : medleyLegal d q = false := by simpa using hleg
      have hstep : medleyPick d (q :: ps) (none, .pinf) = medleyPick d ps (none, .pinf) := by
        rw [medleyPick, if_neg]
        intro hco
        exact hleg hco.1
      rcases ih with ⟨hp, hf⟩ | ⟨p, t, hp, hmem, hpleg, hpt, hmin, hfind⟩
      · refine Or.inl ⟨by rw [hstep]; exact hp, ?_⟩
        simp [List.filter_cons, hleg', hf]
      · refine Or.inr ⟨p, t, by rw [hstep]; exact hp, List.mem_cons_of_mem q hmem,
          hpleg, hpt, ?_, ?_⟩
        · intro r hr hrleg
          rcases List.mem_cons.mp hr with rfl | hr'
          · rw [hrleg] at hleg'; cases hleg'
          · exact hmin r hr' hrleg
        · rw [List.find?_cons_of_neg, hfind]
          simp [hleg']

/-- Claim C3: for a medley slot and a quartet, `create_valid_team` returns no
team exactly when none of the 24 orderings against the fixed legs is legal;
when at least one ordering is legal it returns the team built from an
ordering `p` that is legal, has minimum aggregate time among all legal
orderings, and is the first ordering in enumeration order achieving that
minimum (the `find?` conjunct); the returned team's aggregate completion
time is that minimal sum. -/
theorem c3_medley_min_time_first_tie (aOf : Swimmer → Nat) (sw : List Swimmer)
    (ev : Event) (h4 : sw.length = 4) (hm : ev.stroke_type = .medley) :
    (createValidTeam aOf sw ev = none ↔ legalOrderings ev.distance sw = []) ∧
    (legalOrderings ev.distance sw ≠ [] →
      ∃ p, createValidTeam aOf sw ev = some ⟨p, ev⟩ ∧
        p ∈ legalOrderings ev.distance sw ∧
        (∀ q ∈ legalOrderings ev.distance sw,
          medleyTime ev.distance p ≤ medleyTime ev.distance q) ∧
        (perms sw).find? (fun q => medleyLegal ev.distance q &&
          decide (medleyTime ev.distance q ≤ medleyTime ev.distance p)) = some p ∧
        Team.calculate_time ⟨p, ev⟩ = .fin (medleyTime ev.distance p)) := by
  have hperm4 : ∀ p ∈ perms sw, p.length = 4 := fun p hp => by
    rw [perms_len sw p hp]; exact h4
  have hfold := foldlM_medleyStep_eq_medleyPick ev (perms sw) none .pinf hperm4
  simp only [Option.map_none] at hfold
  have hcv : createValidTeam aOf sw ev =
      (medleyPick ev.distance (perms sw) (none, .pinf)).1.map
        (fun p => (⟨p, ev⟩ : Team)) := by
    unfold createValidTeam createValidTeamE
    rw [if_neg (by omega)]
    simp only [hm]
    rw [show ((perms sw).foldlM (medleyStep ev) (none, XQ.pinf)) =
      Except.ok ((medleyPick ev.distance (perms sw) (none, XQ.pinf)).1.map
        (fun p => (⟨p, ev⟩ : Team)),
        (medleyPick ev.distance (perms sw) (none, XQ.pinf)).2) from hfold]
    rfl
  rcases medleyPick_spec ev.distance (perms sw) with ⟨hp, hf⟩ |
    ⟨p, t, hp, hmem, hpleg, hpt, hmin, hfind⟩
  · constructor
    · constructor
      · intro _; exact hf
      · intro _
        rw [hcv, hp]
        rfl
    · intro hne
      exact absurd hf hne
  · have h1 : (medleyPick ev.distance (perms sw) (none, XQ.pinf)).1 = some p :=
      congrArg Prod.fst hp
    constructor
    · constructor
      · intro hnone
        rw [hcv, h1] at hnone
        cases hnone
      · intro hempty
        have : p ∈ legalOrderings ev.distance sw :=
          List.mem_filter.mpr ⟨hmem, hpleg⟩
        rw [hempty] at this
        cases this
    · intro _
      refine ⟨p, ?_, List.mem_filter.mpr ⟨hmem, hpleg⟩, ?_, ?_,
        calculate_time_of_legal ev p hm hpleg⟩
      · rw [hcv, h1]
        rfl
      · intro q hq
        have hq' := List.mem_filter.mp hq
        rw [← hpt]
        exact hmin q hq'.1 hq'.2
      · rw [← hpt]
        exact hfind


/-- Witness for the claim-C3 theorem: the quota-run medley quartet has
exactly one legal ordering, Stone/Dale/Elm/Fox on back/breast/fly/free, with
aggregate time 190. -/
theorem c3_medley_min_time_first_tie_witness :
    createValidTeam (fun _ => 0) [sS, sD, sE, sF] c1Ev2 =
      some ⟨[sS, sD, sE, sF], c1Ev2⟩ ∧
    Team.calculate_time (⟨[sS, sD, sE, sF], c1Ev2⟩ : Team) = .fin 190 := by
  obtain ⟨p, hp, hmem, hmin, hfind, htime⟩ :=
    (c3_medley_min_time_first_tie (fun _ => 0) [sS, sD, sE, sF] c1Ev2 rfl rfl).2
      (by decide)
  have hcv : createValidTeam (fun _ => 0) [sS, sD, sE, sF] c1Ev2 =
      some ⟨[sS, sD, sE, sF], c1Ev2⟩ := by rfl
  refine ⟨hcv, ?_⟩
  rw [hcv] at hp
  have hpe : p = [sS, sD, sE, sF] := by
    have := Option.some.inj hp
    exact (congrArg Team.swimmers this).symm
  rw [hpe] at htime
  rw [htime]
  rfl

end RelayOpt
